import Mathlib

/-!
Shallow embedding of the klawwork job-marketplace backend
(src/api/src/routes/agent.ts, worker jobs routes, wallet withdrawal,
auth registration, and the JobsRoom WebSocket fan-out).

Persisted rows (jobs, transactions, job_deliverables, messages, users,
agents, reviews) are modelled as Lean structures held in lists inside a
`DB` record; SQL `SELECT ... WHERE` lookups become `List.find?`,
conditional `UPDATE` becomes a map over the list, and `INSERT` a cons.
External effects (escrow hold/release/void calls against KlawKeeper,
object-store puts/deletes) are recorded in append-only logs inside `DB`.
Route handlers become functions `DB → ... → Except ApiError DB`;
non-deterministic inputs (generated ids, CURRENT_TIMESTAMP, fetch
outcomes) are explicit parameters.
-/

/-- Job status enum, exactly the persisted values
`available | assigned | in_progress | submitted | completed | cancelled`. -/
inductive Status
  | available
  | assigned
  | in_progress
  | submitted
  | completed
  | cancelled
deriving DecidableEq, Repr

/-- Worker trust tiers `basic | verified | kyc_gold`. -/
inductive TrustLevel
  | basic
  | verified
  | kyc_gold
deriving DecidableEq, Repr

/-- `trustLevels.indexOf` from POST /jobs/:id/accept:
the ordered scale used for tier comparison
(`const trustLevels = ['basic', 'verified', 'kyc_gold']`). -/
def trustIndex : TrustLevel → Nat
  | .basic => 0
  | .verified => 1
  | .kyc_gold => 2

/-- Transaction type values `job_payment | withdrawal | bonus | refund`. -/
inductive TxnType
  | job_payment
  | withdrawal
  | bonus
  | refund
deriving DecidableEq, Repr

/-- A row of the `jobs` table (schema.sql plus the agent-migration columns
`escrow_hold_id`, `rejection_count`, `last_rejection_reason`).
Money amounts are rationals; timestamps are abstract `Nat` instants. -/
structure Job where
  id : String
  agent_id : String
  title : String
  descr : String
  category : String
  latitude : Rat
  longitude : Rat
  address : Option String
  radius_meters : Nat
  required_trust_level : TrustLevel
  payment_amount : Rat
  payment_currency : String
  status : Status
  worker_id : Option String
  assigned_at : Option Nat
  started_at : Option Nat
  submitted_at : Option Nat
  completed_at : Option Nat
  expires_at : Nat
  must_complete_by : Option Nat
  escrow_hold_id : Option String
  rejection_count : Nat
  last_rejection_reason : Option String
deriving DecidableEq, Repr

/-- A row of the `transactions` table. -/
structure Txn where
  id : String
  user_id : Option String
  type : TxnType
  amount : Rat
  currency : String
  job_id : Option String
  status : String
  descr : String
deriving DecidableEq, Repr

/-- A row of the `job_deliverables` table. -/
structure Deliverable where
  id : String
  job_id : String
  worker_id : String
  file_type : String
  file_url : String
  file_size : Nat
  mime_type : String
  caption : Option String
deriving DecidableEq, Repr

/-- `sender_type` of a message row. -/
inductive SenderType
  | agent
  | worker
deriving DecidableEq, Repr

/-- A row of the `messages` table. -/
structure Message where
  id : String
  job_id : String
  agent_id : String
  worker_id : String
  sender_type : SenderType
  message : String
  message_type : String
deriving DecidableEq, Repr

/-- A row of the `users` (workers) table; fields relevant to the job
lifecycle, with the schema defaults `total_earned = 0`, `rating = 0`,
`rating_count = 0`, `trust_level = basic`. -/
structure User where
  id : String
  email : String
  trust_level : TrustLevel
  jobs_completed : Nat
  total_earned : Rat
  rating : Rat
  rating_count : Nat
deriving DecidableEq, Repr

/-- A row of the `agents` table. -/
structure AgentRow where
  id : String
  jobs_created : Nat
  jobs_completed : Nat
  total_spent_sats : Rat
deriving DecidableEq, Repr

/-- A row of the `reviews` table (the fields the review route reads back). -/
structure Review where
  id : String
  job_id : String
  reviewer_id : String
  worker_id : Option String
  rating : Rat
deriving DecidableEq, Repr

/-- An outbound call to the KlawKeeper escrow ledger
(`/v1/escrow/hold`, `/v1/escrow/release`, `/v1/escrow/void`). -/
inductive EscrowCall
  | hold (amount : Rat) (reference : String)
  | release (holdId : String)
  | voidHold (holdId : String) (refundPercent : Nat)
deriving DecidableEq, Repr

/-- The persistent store plus logs of outbound external effects. -/
structure DB where
  jobs : List Job
  transactions : List Txn
  deliverables : List Deliverable
  messages : List Message
  users : List User
  agents : List AgentRow
  reviews : List Review
  escrowCalls : List EscrowCall
  storagePuts : List String
  storageDeletes : List String
deriving DecidableEq, Repr

/-- Error taxonomy of the routes. `preconditionFailed` is the 404
"not found or not in required status" that the handlers return when the
combined id/ownership/status lookup matches no row. -/
inductive ApiError
  | validation (msg : String)
  | unauthorized (msg : String)
  | preconditionFailed (msg : String)
  | conflict (msg : String)
  | paymentRequired (msg : String)
  | upstream (msg : String)
deriving DecidableEq, Repr

/-- `UPDATE jobs SET ... WHERE id = ?`. -/
def updateJob (db : DB) (jobId : String) (f : Job → Job) : DB :=
  { db with jobs := db.jobs.map (fun j => if j.id = jobId then f j else j) }

/-- `UPDATE users SET ... WHERE id = ?` with a possibly-NULL id argument
(matches no row when the argument is NULL). -/
def updateUserOpt (db : DB) (uid : Option String) (f : User → User) : DB :=
  { db with users := db.users.map (fun u => if some u.id = uid then f u else u) }

/-- `UPDATE agents SET ... WHERE id = ?`. -/
def updateAgentRow (db : DB) (aid : String) (f : AgentRow → AgentRow) : DB :=
  { db with agents := db.agents.map (fun a => if a.id = aid then f a else a) }

/-- The transactions of type `job_payment` attached to a given job id. -/
def jpTxns (ts : List Txn) (jid : String) : List Txn :=
  ts.filter (fun t => decide (t.job_id = some jid ∧ t.type = TxnType.job_payment))

/-- The transactions of type `bonus` attached to a given job id. -/
def bonusTxns (ts : List Txn) (jid : String) : List Txn :=
  ts.filter (fun t => decide (t.job_id = some jid ∧ t.type = TxnType.bonus))

/-- The deliverable rows of a given job. -/
def delsOf (ds : List Deliverable) (jid : String) : List Deliverable :=
  ds.filter (fun d => decide (d.job_id = jid))

/-- Commit semantics of a handler result: on an error response nothing
was written, the store keeps its prior contents. -/
def applyOp (db : DB) (r : Except ApiError DB) : DB :=
  match r with
  | .ok db' => db'
  | .error _ => db

/-! ## Route handlers as state-transition functions -/

/-- `VALID_CATEGORIES` from src/api/src/routes/agent.ts. -/
def validCategories : List String :=
  ["photo_survey", "verification", "transcription",
   "delivery", "inspection", "data_collection", "other"]

/-- Request body of POST /agent/jobs, already shaped to the field types the
handler checks for (`typeof` checks become the field types). -/
structure CreateJobBody where
  title : String
  descr : String
  category : String
  latitude : Rat
  longitude : Rat
  address : Option String := none
  radius_meters : Option Nat := none
  required_trust_level : Option TrustLevel := none
  payment_amount : Rat
  payment_currency : Option String := none
  expires_at : Nat
  must_complete_by : Option Nat := none
deriving DecidableEq, Repr

/-- Outcome of the `/v1/escrow/hold` fetch during job creation:
success with a hold id, a non-ok response (402 insufficient balance),
or a thrown communication error (502). -/
inductive HoldResult
  | ok (holdId : String)
  | insufficient
  | unreachable
deriving DecidableEq, Repr

/-- The job row inserted by POST /agent/jobs: status 'available', no
worker, schema-default counters, the freshly obtained escrow hold id. -/
def newJobOf (agentId : String) (b : CreateJobBody) (holdId jobId : String) : Job :=
  { id := jobId
    agent_id := agentId
    title := b.title
    descr := b.descr
    category := b.category
    latitude := b.latitude
    longitude := b.longitude
    address := b.address
    radius_meters := b.radius_meters.getD 100
    required_trust_level := b.required_trust_level.getD .basic
    payment_amount := b.payment_amount
    payment_currency := b.payment_currency.getD "USD"
    status := .available
    worker_id := none
    assigned_at := none
    started_at := none
    submitted_at := none
    completed_at := none
    expires_at := b.expires_at
    must_complete_by := b.must_complete_by
    escrow_hold_id := some holdId
    rejection_count := 0
    last_rejection_reason := none }

/-- POST /agent/jobs (src/api/src/routes/agent.ts): validate fields, hold
escrow (hard failure aborts creation), insert the job row with
status 'available', bump the agent's jobs_created counter. -/
def createJob (db : DB) (agentId : String) (b : CreateJobBody)
    (holdRes : HoldResult) (jobId : String) (now : Nat) : Except ApiError DB :=
  if b.title.length = 0 ∨ 200 < b.title.length then
    .error (.validation "title is required (max 200 chars)")
  else if b.descr.length = 0 ∨ 2000 < b.descr.length then
    .error (.validation "description is required (max 2000 chars)")
  else if (validCategories.contains b.category) = false then
    .error (.validation "category must be one of the valid categories")
  else if b.latitude < -90 ∨ 90 < b.latitude then
    .error (.validation "Valid latitude is required (-90 to 90)")
  else if b.longitude < -180 ∨ 180 < b.longitude then
    .error (.validation "Valid longitude is required (-180 to 180)")
  else if b.payment_amount < 1 then
    .error (.validation "payment_amount is required (min 1.00)")
  else if b.expires_at ≤ now then
    .error (.validation "expires_at must be a valid future datetime")
  else
    match holdRes with
    | .insufficient => .error (.paymentRequired "Insufficient KlawKeeper balance to fund this job")
    | .unreachable => .error (.upstream "Failed to communicate with KlawKeeper for escrow")
    | .ok holdId =>
      let db1 : DB :=
        { db with escrowCalls :=
            EscrowCall.hold b.payment_amount "klawwork_job_pending" :: db.escrowCalls }
      let db2 : DB := { db1 with jobs := newJobOf agentId b holdId jobId :: db1.jobs }
      let db3 := updateAgentRow db2 agentId
        (fun a => { a with jobs_created := a.jobs_created + 1 })
      .ok db3

/-- POST /jobs/:id/accept (worker jobs routes): look up the job by id with
status 'available', compare trust tiers by list index, then mark assigned. -/
def acceptJob (db : DB) (user : User) (jobId : String) (now : Nat) :
    Except ApiError DB :=
  match db.jobs.find? (fun j => decide (j.id = jobId ∧ j.status = Status.available)) with
  | none => .error (.preconditionFailed "Job not found or no longer available")
  | some job =>
    if trustIndex user.trust_level < trustIndex job.required_trust_level then
      .error (.unauthorized "Insufficient trust level for this job")
    else
      .ok (updateJob db jobId (fun j =>
        { j with status := .assigned, worker_id := some user.id, assigned_at := some now }))

/-- POST /jobs/:id/start: requires the job to be assigned to the caller. -/
def startJob (db : DB) (workerId jobId : String) (now : Nat) : Except ApiError DB :=
  match db.jobs.find? (fun j =>
      decide (j.id = jobId ∧ j.worker_id = some workerId ∧ j.status = Status.assigned)) with
  | none => .error (.preconditionFailed "Job not found or not assigned to you")
  | some _job =>
    .ok (updateJob db jobId (fun j =>
      { j with status := .in_progress, started_at := some now }))

/-- The uploaded multipart file of POST /jobs/:id/upload. -/
structure FileUpload where
  name : String
  size : Nat
  mime_type : String
deriving DecidableEq, Repr

/-- POST /jobs/:id/upload: the lookup checks only `id` and `worker_id`
(no status condition), then puts the file in object storage and inserts a
deliverable row. `fileId` and `delivId` are the two generated ids. -/
def uploadDeliverable (db : DB) (workerId jobId : String)
    (file : Option FileUpload) (caption : Option String)
    (fileId delivId : String) : Except ApiError DB :=
  match db.jobs.find? (fun j => decide (j.id = jobId ∧ j.worker_id = some workerId)) with
  | none => .error (.preconditionFailed "Job not found or not assigned to you")
  | some _job =>
    match file with
    | none => .error (.validation "No file provided")
    | some f =>
      let fileKey := "jobs/" ++ jobId ++ "/" ++ fileId ++ "-" ++ f.name
      let db1 : DB := { db with storagePuts := fileKey :: db.storagePuts }
      .ok { db1 with deliverables :=
        { id := delivId
          job_id := jobId
          worker_id := workerId
          file_type := "photo"
          file_url := fileKey
          file_size := f.size
          mime_type := f.mime_type
          caption := caption } :: db1.deliverables }

/-- POST /jobs/:id/complete: requires status 'in_progress' for the caller
and at least one deliverable row, then marks the job submitted. -/
def completeJob (db : DB) (workerId jobId : String) (now : Nat) : Except ApiError DB :=
  match db.jobs.find? (fun j =>
      decide (j.id = jobId ∧ j.worker_id = some workerId ∧ j.status = Status.in_progress)) with
  | none => .error (.preconditionFailed "Job not found or not in progress")
  | some _job =>
    if (delsOf db.deliverables jobId).length = 0 then
      .error (.validation "Please upload required deliverables first")
    else
      .ok (updateJob db jobId (fun j =>
        { j with status := .submitted, submitted_at := some now }))

/-- The job_payment transaction row inserted on approval. -/
def payTxnOf (job : Job) (jobId txnId : String) : Txn :=
  { id := txnId
    user_id := job.worker_id
    type := .job_payment
    amount := job.payment_amount
    currency := job.payment_currency
    job_id := some jobId
    status := "completed"
    descr := "Payment for job: " ++ job.title }

/-- The bonus transaction row inserted on approval with a positive tip. -/
def tipTxnOf (job : Job) (jobId tipTxnId : String) (amt : Rat) (cur : String) : Txn :=
  { id := tipTxnId
    user_id := job.worker_id
    type := .bonus
    amount := amt
    currency := cur
    job_id := some jobId
    status := "completed"
    descr := "Tip for job: " ++ job.title }

/-- The compensation transaction row inserted when an in-progress job is
cancelled: 50% of the base amount, recorded as a job_payment. -/
def compTxnOf (job : Job) (jobId txnId : String) (w : String) : Txn :=
  { id := txnId
    user_id := some w
    type := .job_payment
    amount := job.payment_amount * (1 / 2 : Rat)
    currency := job.payment_currency
    job_id := some jobId
    status := "completed"
    descr := "Cancellation compensation for job: " ++ job.title }

/-- The success path of POST /agent/jobs/:id/approve, applied to the row
`job` the guarded lookup returned: attempt the escrow release (outcome
ignored), mark the job completed, insert the job_payment transaction, the
optional bonus transaction when a positive tip was supplied, and bump the
worker's and the agent's aggregates. -/
def approveApply (db : DB) (agentId jobId : String) (job : Job)
    (tip_amount : Option Rat) (tip_currency : Option String) (now : Nat)
    (txnId tipTxnId : String) : DB :=
  let db1 : DB :=
    match job.escrow_hold_id with
    | some h => { db with escrowCalls := EscrowCall.release h :: db.escrowCalls }
    | none => db
  let db2 := updateJob db1 jobId (fun j =>
    { j with status := .completed, completed_at := some now })
  let db3 : DB := { db2 with transactions := payTxnOf job jobId txnId :: db2.transactions }
  let tipPositive : Bool := match tip_amount with
    | some t => decide (0 < t)
    | none => false
  let tipAmt : Rat := if tipPositive then tip_amount.getD 0 else 0
  let db4 : DB :=
    if tipPositive then
      { db3 with
        transactions :=
          tipTxnOf job jobId tipTxnId tipAmt (tip_currency.getD job.payment_currency) ::
            db3.transactions }
    else db3
  let totalPaid := job.payment_amount + tipAmt
  let db5 := updateUserOpt db4 job.worker_id (fun u =>
    { u with jobs_completed := u.jobs_completed + 1
             total_earned := u.total_earned + totalPaid })
  updateAgentRow db5 agentId (fun a =>
    { a with jobs_completed := a.jobs_completed + 1
             total_spent_sats := a.total_spent_sats + totalPaid })

/-- POST /agent/jobs/:id/approve: the lookup requires id, owning agent and
status 'submitted' in one query; `releaseOutcome` is the result of the
escrow-release fetch, which the handler never inspects (a thrown
communication error is caught and logged, the response body is ignored). -/
def approveJob (db : DB) (agentId jobId : String)
    (tip_amount : Option Rat) (tip_currency : Option String) (now : Nat)
    (txnId tipTxnId : String) (releaseOutcome : Except Unit Unit) :
    Except ApiError DB :=
  match db.jobs.find? (fun j =>
      decide (j.id = jobId ∧ j.agent_id = agentId ∧ j.status = Status.submitted)) with
  | none => .error (.preconditionFailed "Job not found or not in submitted status")
  | some job =>
    .ok (approveApply db agentId jobId job tip_amount tip_currency now txnId tipTxnId)

/-- A JSON value as it may appear in the `keep_assigned` field of the
reject body; `keepAssigned = body.keep_assigned !== false` is true for
every value except the boolean `false`. -/
inductive JVal
  | jnull
  | jbool (b : Bool)
  | jnum (q : Rat)
  | jstr (s : String)
deriving DecidableEq, Repr

/-- The success path of POST /agent/jobs/:id/reject for the looked-up row
`job`: with `keep_assigned !== false` send the job back to the same worker
(status in_progress, submitted_at cleared, rejection_count incremented);
otherwise release it to the pool (clear worker_id/assigned_at/started_at/
submitted_at, delete every deliverable row and its stored object); in both
cases record a system message to the worker of the pre-update row. -/
def rejectApply (db : DB) (agentId jobId : String) (job : Job)
    (reason : String) (keep_assigned : Option JVal) (msgId : String) : DB :=
  let keepAssigned : Bool := decide (keep_assigned ≠ some (JVal.jbool false))
  let db1 : DB :=
    if keepAssigned then
      updateJob db jobId (fun j =>
        { j with status := .in_progress
                 submitted_at := none
                 rejection_count := j.rejection_count + 1
                 last_rejection_reason := some reason })
    else
      let dbp := updateJob db jobId (fun j =>
        { j with status := .available
                 worker_id := none
                 assigned_at := none
                 started_at := none
                 submitted_at := none
                 rejection_count := j.rejection_count + 1
                 last_rejection_reason := some reason })
      let urls := (delsOf dbp.deliverables jobId).map Deliverable.file_url
      let dbq : DB := { dbp with storageDeletes := urls ++ dbp.storageDeletes }
      { dbq with deliverables := dbq.deliverables.filter (fun d => decide (¬ d.job_id = jobId)) }
  match job.worker_id with
  | some w =>
    { db1 with messages :=
      { id := msgId
        job_id := jobId
        agent_id := agentId
        worker_id := w
        sender_type := .agent
        message := "Job rejected: " ++ reason
        message_type := "system" } :: db1.messages }
  | none => db1

/-- POST /agent/jobs/:id/reject: `reason` is required and must be a
non-empty string; the lookup requires id, owning agent and status
'submitted' in one query. -/
def rejectJob (db : DB) (agentId jobId : String) (reason : Option String)
    (keep_assigned : Option JVal) (msgId : String) : Except ApiError DB :=
  match reason with
  | none => .error (.validation "reason is required")
  | some r =>
    if r = "" then .error (.validation "reason is required")
    else
      match db.jobs.find? (fun j =>
          decide (j.id = jobId ∧ j.agent_id = agentId ∧ j.status = Status.submitted)) with
      | none => .error (.preconditionFailed "Job not found or not in submitted status")
      | some job => .ok (rejectApply db agentId jobId job r keep_assigned msgId)

/-- The success path of POST /agent/jobs/:id/cancel for the looked-up row
`job` (status already checked to be cancellable): void the escrow hold at
50% refund when in_progress and 100% otherwise, pay the worker 50% of the
base amount as compensation when in_progress, mark the job cancelled, and
notify an assigned worker with a system message. -/
def cancelApply (db : DB) (agentId jobId : String) (job : Job)
    (reason : Option String) (txnId msgId : String) : DB :=
  let refundPercent : Nat := if job.status = Status.in_progress then 50 else 100
  let db1 : DB :=
    match job.escrow_hold_id with
    | some h => { db with escrowCalls := EscrowCall.voidHold h refundPercent :: db.escrowCalls }
    | none => db
  let db2 : DB :=
    match job.worker_id with
    | some w =>
      if job.status = Status.in_progress then
        let compensation := job.payment_amount * (1 / 2 : Rat)
        let dbt : DB :=
          { db1 with transactions := compTxnOf job jobId txnId w :: db1.transactions }
        updateUserOpt dbt (some w) (fun u =>
          { u with total_earned := u.total_earned + compensation })
      else db1
    | none => db1
  let db3 := updateJob db2 jobId (fun j => { j with status := .cancelled })
  match job.worker_id with
  | some w =>
    { db3 with messages :=
      { id := msgId
        job_id := jobId
        agent_id := agentId
        worker_id := w
        sender_type := .agent
        message := "Job cancelled by agent" ++ (match reason with
          | some r => ": " ++ r
          | none => "")
        message_type := "system" } :: db3.messages }
  | none => db3

/-- POST /agent/jobs/:id/cancel: the lookup requires only id and owning
agent; submitted, completed and cancelled jobs are refused with 409s. -/
def cancelJob (db : DB) (agentId jobId : String) (reason : Option String)
    (txnId msgId : String) : Except ApiError DB :=
  match db.jobs.find? (fun j => decide (j.id = jobId ∧ j.agent_id = agentId)) with
  | none => .error (.preconditionFailed "Job not found")
  | some job =>
    if job.status = Status.submitted then
      .error (.conflict "Cannot cancel a submitted job — approve or reject it first")
    else if job.status = Status.completed then
      .error (.conflict "Cannot cancel a completed job")
    else if job.status = Status.cancelled then
      .error (.conflict "Job is already cancelled")
    else
      .ok (cancelApply db agentId jobId job reason txnId msgId)

/-- The running-average update of POST /agent/jobs/:id/review:
`UPDATE users SET rating = (rating * rating_count + ?) / (rating_count + 1),
rating_count = rating_count + 1`. -/
def ratingUpdate (rating : Rat) (rating_count : Nat) (newRating : Rat) : Rat × Nat :=
  ((rating * rating_count + newRating) / (rating_count + 1), rating_count + 1)

/-- POST /agent/jobs/:id/review: rating must be in 1..5, the job must be
completed and owned by the caller, at most one review per job; then the
worker's aggregate rating is updated with `ratingUpdate`. -/
def submitReview (db : DB) (agentId jobId : String) (rating : Rat)
    (reviewId : String) : Except ApiError DB :=
  if rating < 1 ∨ 5 < rating then
    .error (.validation "rating is required (1-5)")
  else
    match db.jobs.find? (fun j =>
        decide (j.id = jobId ∧ j.agent_id = agentId ∧ j.status = Status.completed)) with
    | none => .error (.preconditionFailed "Job not found or not completed")
    | some job =>
      match db.reviews.find? (fun r => decide (r.job_id = jobId)) with
      | some _ => .error (.conflict "Review already submitted for this job")
      | none =>
        let db1 : DB := { db with reviews :=
          { id := reviewId
            job_id := jobId
            reviewer_id := agentId
            worker_id := job.worker_id
            rating := rating } :: db.reviews }
        .ok (updateUserOpt db1 job.worker_id (fun u =>
          let p := ratingUpdate u.rating u.rating_count rating
          { u with rating := p.1, rating_count := p.2 }))

/-- POST /agent/jobs/:id/message: requires an owned job with an assigned
worker, then appends a message from the agent. -/
def agentSendMessage (db : DB) (agentId jobId : String) (text : String)
    (message_type : Option String) (msgId : String) : Except ApiError DB :=
  if text = "" then .error (.validation "message is required")
  else
    match db.jobs.find? (fun j => decide (j.id = jobId ∧ j.agent_id = agentId)) with
    | none => .error (.preconditionFailed "Job not found")
    | some job =>
      match job.worker_id with
      | none => .error (.validation "No worker assigned to this job yet")
      | some w =>
        .ok { db with messages :=
          { id := msgId
            job_id := jobId
            agent_id := agentId
            worker_id := w
            sender_type := .agent
            message := text
            message_type := message_type.getD "text" } :: db.messages }

/-- POST /messages/:jobId/send (worker side): requires a job assigned to
the caller, then appends a message from the worker. -/
def workerSendMessage (db : DB) (workerId jobId : String) (text : String)
    (message_type : Option String) (msgId : String) : Except ApiError DB :=
  if text = "" then .error (.validation "Message content is required")
  else
    match db.jobs.find? (fun j => decide (j.id = jobId ∧ j.worker_id = some workerId)) with
    | none => .error (.preconditionFailed "Job not found or not assigned to you")
    | some job =>
      .ok { db with messages :=
        { id := msgId
          job_id := jobId
          agent_id := job.agent_id
          worker_id := workerId
          sender_type := .worker
          message := text
          message_type := message_type.getD "text" } :: db.messages }

/-- POST /wallet/withdraw: validates amount/currency/destination, checks
`total_earned` minus pending-or-completed withdrawals, the 10-unit
minimum and the trust level, then inserts a pending withdrawal
transaction (no job reference). -/
def requestWithdrawal (db : DB) (userId : String) (amount : Rat)
    (currency destination : String) (txnId : String) : Except ApiError DB :=
  if amount ≤ 0 then .error (.validation "Invalid withdrawal amount")
  else if currency = "" then .error (.validation "Currency is required")
  else if destination = "" then .error (.validation "Destination address is required")
  else
    match db.users.find? (fun u => decide (u.id = userId)) with
    | none => .error (.preconditionFailed "User not found")
    | some u =>
      let withdrawn := ((db.transactions.filter (fun t =>
          decide (t.user_id = some userId ∧ t.type = TxnType.withdrawal ∧
            (t.status = "pending" ∨ t.status = "completed")))).map Txn.amount).sum
      if u.total_earned - withdrawn < amount then
        .error (.validation "Insufficient balance")
      else if amount < 10 then
        .error (.validation "Minimum withdrawal amount is 10 USD")
      else if u.trust_level = TrustLevel.basic then
        .error (.unauthorized "You must verify your account before withdrawing funds")
      else
        .ok { db with transactions :=
          { id := txnId
            user_id := some userId
            type := .withdrawal
            amount := amount
            currency := currency
            job_id := none
            status := "pending"
            descr := "Withdrawal to " ++ destination } :: db.transactions }

/-- POST /auth/register: inserts a worker row with the schema defaults
(trust basic, zero aggregates) when the email is new. -/
def registerUser (db : DB) (name email password : String) (userId : String) :
    Except ApiError DB :=
  if name = "" ∨ email = "" ∨ password = "" then
    .error (.validation "Name, email, and password are required")
  else if password.length < 6 then
    .error (.validation "Password must be at least 6 characters")
  else
    match db.users.find? (fun u => decide (u.email = email)) with
    | some _ => .error (.conflict "User with this email already exists")
    | none =>
      .ok { db with users :=
        { id := userId
          email := email
          trust_level := .basic
          jobs_completed := 0
          total_earned := 0
          rating := 0
          rating_count := 0 } :: db.users }

/-- POST /agent/register: idempotent; inserts an agent row with zeroed
counters when not yet present. -/
def registerAgentRow (db : DB) (agentId : String) : Except ApiError DB :=
  match db.agents.find? (fun a => decide (a.id = agentId)) with
  | some _ => .ok db
  | none =>
    .ok { db with agents :=
      { id := agentId
        jobs_created := 0
        jobs_completed := 0
        total_spent_sats := 0 } :: db.agents }

/-! ## JobsRoom: WebSocket fan-out (Durable Object) -/

/-- A registered WebSocket session as stored in the room's map:
the connected user and the time of its last liveness ping. The map key
(`crypto.randomUUID()`) is carried alongside. -/
structure Session where
  sessionId : String
  userId : String
  lastPing : Nat
deriving DecidableEq, Repr

/-- The staleness test of `startPingInterval`: `now - session.lastPing >
timeout` with `timeout = 60000` milliseconds. -/
def isStale (now : Nat) (s : Session) : Bool :=
  decide (60000 < now - s.lastPing)

/-- The periodic sweep body of `startPingInterval`: every stale session is
force-closed and removed from the registry; the remaining sessions are
kept (each is sent a liveness ping). Returns the surviving registry. -/
def sweepSessions (now : Nat) (sessions : List Session) : List Session :=
  sessions.filter (fun s => ! isStale now s)

/-- The sessions closed by one sweep. -/
def sweptSessions (now : Nat) (sessions : List Session) : List Session :=
  sessions.filter (fun s => isStale now s)

/-- `broadcast(message, excludeUserId?)`: the sessions a broadcast
delivers to — every registered session except those of the excluded user. -/
def broadcastRecipients (sessions : List Session) (excludeUserId : Option String) :
    List Session :=
  sessions.filter (fun s =>
    ! decide (∃ uid, excludeUserId = some uid ∧ s.userId = uid))

/-- `sendToUser(userId, message)`: the sessions of the addressed user. -/
def sendToUserRecipients (sessions : List Session) (userId : String) :
    List Session :=
  sessions.filter (fun s => decide (s.userId = userId))

/-! ## Rating aggregation -/

/-- Applying a sequence of review ratings to a worker's
`(rating, rating_count)` aggregate, one `ratingUpdate` per submission. -/
def applyRatings (init : Rat × Nat) (rs : List Rat) : Rat × Nat :=
  rs.foldl (fun s r => ratingUpdate s.1 s.2 r) init

/-! ## The system's step relation and reachable states -/

/-- The empty store the service starts from. -/
def dbInit : DB :=
  { jobs := [], transactions := [], deliverables := [], messages := []
    users := [], agents := [], reviews := [], escrowCalls := []
    storagePuts := [], storageDeletes := [] }

/-- One successfully committed request against the store: each constructor
is one route handler returning `.ok`. Generated ids and timestamps are
existentially chosen; a freshly generated job id never collides with a
stored one. -/
inductive Step : DB → DB → Prop
  | create {db db' : DB} (agentId : String) (b : CreateJobBody)
      (holdRes : HoldResult) (jobId : String) (now : Nat)
      (hfresh : ∀ j ∈ db.jobs, j.id ≠ jobId)
      (h : createJob db agentId b holdRes jobId now = .ok db') : Step db db'
  | accept {db db' : DB} (user : User) (jobId : String) (now : Nat)
      (hu : user ∈ db.users)
      (h : acceptJob db user jobId now = .ok db') : Step db db'
  | start {db db' : DB} (workerId jobId : String) (now : Nat)
      (h : startJob db workerId jobId now = .ok db') : Step db db'
  | upload {db db' : DB} (workerId jobId : String) (file : Option FileUpload)
      (caption : Option String) (fileId delivId : String)
      (h : uploadDeliverable db workerId jobId file caption fileId delivId = .ok db') :
      Step db db'
  | complete {db db' : DB} (workerId jobId : String) (now : Nat)
      (h : completeJob db workerId jobId now = .ok db') : Step db db'
  | approve {db db' : DB} (agentId jobId : String) (tip : Option Rat)
      (tipCur : Option String) (now : Nat) (txnId tipTxnId : String)
      (rel : Except Unit Unit)
      (h : approveJob db agentId jobId tip tipCur now txnId tipTxnId rel = .ok db') :
      Step db db'
  | reject {db db' : DB} (agentId jobId : String) (reason : Option String)
      (keep : Option JVal) (msgId : String)
      (h : rejectJob db agentId jobId reason keep msgId = .ok db') : Step db db'
  | cancel {db db' : DB} (agentId jobId : String) (reason : Option String)
      (txnId msgId : String)
      (h : cancelJob db agentId jobId reason txnId msgId = .ok db') : Step db db'
  | review {db db' : DB} (agentId jobId : String) (rating : Rat) (reviewId : String)
      (h : submitReview db agentId jobId rating reviewId = .ok db') : Step db db'
  | agentMsg {db db' : DB} (agentId jobId text : String) (mt : Option String)
      (msgId : String)
      (h : agentSendMessage db agentId jobId text mt msgId = .ok db') : Step db db'
  | workerMsg {db db' : DB} (workerId jobId text : String) (mt : Option String)
      (msgId : String)
      (h : workerSendMessage db workerId jobId text mt msgId = .ok db') : Step db db'
  | withdraw {db db' : DB} (userId : String) (amount : Rat)
      (currency destination txnId : String)
      (h : requestWithdrawal db userId amount currency destination txnId = .ok db') :
      Step db db'
  | register {db db' : DB} (name email password userId : String)
      (h : registerUser db name email password userId = .ok db') : Step db db'
  | registerAgent {db db' : DB} (agentId : String)
      (h : registerAgentRow db agentId = .ok db') : Step db db'

/-- States reachable from the empty store by committed requests. -/
inductive Reachable : DB → Prop
  | init : Reachable dbInit
  | step {db db' : DB} : Reachable db → Step db db' → Reachable db'

/-! ## The lifecycle invariant -/

/-- Per-job invariant tying a job row to the transaction table. -/
def JobInv (ts : List Txn) (j : Job) : Prop :=
  (j.status = Status.available → j.worker_id = none) ∧
  ((j.status = Status.assigned ∨ j.status = Status.in_progress ∨
      j.status = Status.submitted) → j.worker_id.isSome) ∧
  (j.status = Status.completed → j.completed_at.isSome ∧
    ∃ w, j.worker_id = some w ∧
      ∃ t, jpTxns ts j.id = [t] ∧ t.user_id = some w ∧ t.amount = j.payment_amount) ∧
  ((j.status = Status.available ∨ j.status = Status.assigned ∨
      j.status = Status.in_progress ∨ j.status = Status.submitted) →
    jpTxns ts j.id = [] ∧ bonusTxns ts j.id = [])

/-- Store-wide invariant: job ids are unique, transactions and
deliverables reference stored jobs, deliverables never belong to an
available job, and every job satisfies `JobInv`. -/
def StoreInv (db : DB) : Prop :=
  (db.jobs.map Job.id).Nodup ∧
  (∀ t ∈ db.transactions, ∀ jid, t.job_id = some jid → ∃ j ∈ db.jobs, j.id = jid) ∧
  (∀ d ∈ db.deliverables, ∃ j ∈ db.jobs, j.id = d.job_id ∧ j.status ≠ Status.available) ∧
  (∀ j ∈ db.jobs, JobInv db.transactions j)

/-! ## Basic lemmas about lookups, updates and transaction filters -/

theorem find?_decide_some {α : Type} {l : List α} {p : α → Prop} [DecidablePred p]
    {a : α} (h : l.find? (fun x => decide (p x)) = some a) : a ∈ l ∧ p a := by
  have hm := List.mem_of_find?_eq_some h
  have hp := List.find?_some h
  simp only [decide_eq_true_eq] at hp
  exact ⟨hm, hp⟩

theorem find?_decide_eq_none {α : Type} {l : List α} {p : α → Prop} [DecidablePred p]
    (h : ∀ a ∈ l, ¬ p a) : l.find? (fun x => decide (p x)) = none := by
  rw [List.find?_eq_none]
  intro a ha
  simpa using h a ha

theorem job_id_inj {l : List Job} (hnd : (l.map Job.id).Nodup) {j k : Job}
    (hj : j ∈ l) (hk : k ∈ l) (h : j.id = k.id) : j = k :=
  List.inj_on_of_nodup_map hnd hj hk h

theorem map_id_update {l : List Job} {jid : String} {f : Job → Job}
    (hf : ∀ j, (f j).id = j.id) :
    (l.map (fun j => if j.id = jid then f j else j)).map Job.id = l.map Job.id := by
  rw [List.map_map]
  apply List.map_congr_left
  intro j _
  by_cases h : j.id = jid <;> simp [h, hf]

theorem jpTxns_cons {t : Txn} {ts : List Txn} {jid : String} :
    jpTxns (t :: ts) jid =
      if t.job_id = some jid ∧ t.type = TxnType.job_payment then t :: jpTxns ts jid
      else jpTxns ts jid := by
  by_cases h : t.job_id = some jid ∧ t.type = TxnType.job_payment <;>
    simp [jpTxns, List.filter_cons, h]

theorem bonusTxns_cons {t : Txn} {ts : List Txn} {jid : String} :
    bonusTxns (t :: ts) jid =
      if t.job_id = some jid ∧ t.type = TxnType.bonus then t :: bonusTxns ts jid
      else bonusTxns ts jid := by
  by_cases h : t.job_id = some jid ∧ t.type = TxnType.bonus <;>
    simp [bonusTxns, List.filter_cons, h]

theorem jpTxns_eq_nil_of_no_ref {ts : List Txn} {jid : String}
    (h : ∀ t ∈ ts, t.job_id ≠ some jid) : jpTxns ts jid = [] := by
  rw [jpTxns, List.filter_eq_nil_iff]
  intro t ht
  simp only [decide_eq_true_eq, not_and]
  intro hj
  exact absurd hj (h t ht)

theorem bonusTxns_eq_nil_of_no_ref {ts : List Txn} {jid : String}
    (h : ∀ t ∈ ts, t.job_id ≠ some jid) : bonusTxns ts jid = [] := by
  rw [bonusTxns, List.filter_eq_nil_iff]
  intro t ht
  simp only [decide_eq_true_eq, not_and]
  intro hj
  exact absurd hj (h t ht)

/-! ## Shape of the success paths -/

/-- The boolean `body.tip_amount && body.tip_amount > 0`. -/
def tipPos (tip : Option Rat) : Bool :=
  match tip with
  | some t => decide (0 < t)
  | none => false

/-- The tip amount actually credited: the supplied tip when positive, 0
otherwise. -/
def tipValue (tip : Option Rat) : Rat :=
  if tipPos tip then tip.getD 0 else 0

theorem approveApply_jobs (db : DB) (agentId jobId : String) (job : Job)
    (tip : Option Rat) (tc : Option String) (now : Nat) (t1 t2 : String) :
    (approveApply db agentId jobId job tip tc now t1 t2).jobs =
      db.jobs.map (fun j => if j.id = jobId then
        { j with status := Status.completed, completed_at := some now } else j) := by
  unfold approveApply
  cases job.escrow_hold_id <;>
    simp [updateJob, updateUserOpt, updateAgentRow] <;>
    split <;> rfl

theorem approveApply_transactions (db : DB) (agentId jobId : String) (job : Job)
    (tip : Option Rat) (tc : Option String) (now : Nat) (t1 t2 : String) :
    (approveApply db agentId jobId job tip tc now t1 t2).transactions =
      (if tipPos tip then
        [tipTxnOf job jobId t2 (tip.getD 0) (tc.getD job.payment_currency)] else []) ++
      payTxnOf job jobId t1 :: db.transactions := by
  unfold approveApply tipPos
  cases job.escrow_hold_id <;>
    simp [updateJob, updateUserOpt, updateAgentRow] <;>
    split <;> simp_all

theorem approveApply_deliverables (db : DB) (agentId jobId : String) (job : Job)
    (tip : Option Rat) (tc : Option String) (now : Nat) (t1 t2 : String) :
    (approveApply db agentId jobId job tip tc now t1 t2).deliverables =
      db.deliverables := by
  unfold approveApply
  cases job.escrow_hold_id <;>
    simp [updateJob, updateUserOpt, updateAgentRow] <;>
    split <;> rfl

theorem approveApply_users (db : DB) (agentId jobId : String) (job : Job)
    (tip : Option Rat) (tc : Option String) (now : Nat) (t1 t2 : String) :
    (approveApply db agentId jobId job tip tc now t1 t2).users =
      db.users.map (fun u => if some u.id = job.worker_id then
        { u with jobs_completed := u.jobs_completed + 1
                 total_earned := u.total_earned + (job.payment_amount + tipValue tip) }
        else u) := by
  unfold approveApply tipValue tipPos
  cases job.escrow_hold_id <;>
    simp [updateJob, updateUserOpt, updateAgentRow] <;>
    split <;> rfl

theorem cancelApply_jobs (db : DB) (agentId jobId : String) (job : Job)
    (reason : Option String) (t1 m1 : String) :
    (cancelApply db agentId jobId job reason t1 m1).jobs =
      db.jobs.map (fun j => if j.id = jobId then
        { j with status := Status.cancelled } else j) := by
  unfold cancelApply
  cases job.escrow_hold_id <;> cases job.worker_id <;>
    simp [updateJob, updateUserOpt] <;> split <;> rfl

theorem cancelApply_transactions_in_progress (db : DB) (agentId jobId : String)
    (job : Job) (reason : Option String) (t1 m1 : String) {w : String}
    (hw : job.worker_id = some w) (hs : job.status = Status.in_progress) :
    (cancelApply db agentId jobId job reason t1 m1).transactions =
      compTxnOf job jobId t1 w :: db.transactions := by
  unfold cancelApply
  cases h : job.escrow_hold_id <;>
    simp [hw, hs, updateJob, updateUserOpt]

theorem cancelApply_transactions_other (db : DB) (agentId jobId : String)
    (job : Job) (reason : Option String) (t1 m1 : String)
    (hs : job.status ≠ Status.in_progress) :
    (cancelApply db agentId jobId job reason t1 m1).transactions =
      db.transactions := by
  unfold cancelApply
  cases h : job.escrow_hold_id <;> cases hw : job.worker_id <;>
    simp [hs, updateJob, updateUserOpt]

theorem cancelApply_escrow_in_progress (db : DB) (agentId jobId : String)
    (job : Job) (reason : Option String) (t1 m1 : String) {h : String}
    (hh : job.escrow_hold_id = some h) (hs : job.status = Status.in_progress) :
    (cancelApply db agentId jobId job reason t1 m1).escrowCalls =
      EscrowCall.voidHold h 50 :: db.escrowCalls := by
  unfold cancelApply
  cases hw : job.worker_id <;>
    simp [hh, hs, updateJob, updateUserOpt]

theorem cancelApply_escrow_other (db : DB) (agentId jobId : String)
    (job : Job) (reason : Option String) (t1 m1 : String) {h : String}
    (hh : job.escrow_hold_id = some h) (hs : job.status ≠ Status.in_progress) :
    (cancelApply db agentId jobId job reason t1 m1).escrowCalls =
      EscrowCall.voidHold h 100 :: db.escrowCalls := by
  unfold cancelApply
  cases hw : job.worker_id <;>
    simp [hh, hs, updateJob, updateUserOpt]

theorem cancelApply_deliverables (db : DB) (agentId jobId : String) (job : Job)
    (reason : Option String) (t1 m1 : String) :
    (cancelApply db agentId jobId job reason t1 m1).deliverables =
      db.deliverables := by
  unfold cancelApply
  cases job.escrow_hold_id <;> cases job.worker_id <;>
    simp [updateJob, updateUserOpt] <;> split <;> rfl

/-- The updated row written by reject with `keep_assigned` not `false`. -/
def rejectKeepRow (reason : String) (j : Job) : Job :=
  { j with status := Status.in_progress
           submitted_at := none
           rejection_count := j.rejection_count + 1
           last_rejection_reason := some reason }

/-- The updated row written by reject with `keep_assigned = false`. -/
def rejectReleaseRow (reason : String) (j : Job) : Job :=
  { j with status := Status.available
           worker_id := none
           assigned_at := none
           started_at := none
           submitted_at := none
           rejection_count := j.rejection_count + 1
           last_rejection_reason := some reason }

theorem rejectApply_keep (db : DB) (agentId jobId : String) (job : Job)
    (reason : String) (keep : Option JVal) (msgId : String)
    (hk : keep ≠ some (JVal.jbool false)) :
    rejectApply db agentId jobId job reason keep msgId =
      (let db1 := updateJob db jobId (rejectKeepRow reason)
       match job.worker_id with
       | some w =>
         { db1 with messages :=
           { id := msgId
             job_id := jobId
             agent_id := agentId
             worker_id := w
             sender_type := .agent
             message := "Job rejected: " ++ reason
             message_type := "system" } :: db1.messages }
       | none => db1) := by
  unfold rejectApply rejectKeepRow
  cases job.worker_id <;> simp [hk]

theorem rejectApply_release (db : DB) (agentId jobId : String) (job : Job)
    (reason : String) (msgId : String) :
    rejectApply db agentId jobId job reason (some (JVal.jbool false)) msgId =
      (let dbp := updateJob db jobId (rejectReleaseRow reason)
       let urls := (delsOf dbp.deliverables jobId).map Deliverable.file_url
       let dbq : DB := { dbp with storageDeletes := urls ++ dbp.storageDeletes }
       let db1 : DB :=
         { dbq with deliverables :=
             dbq.deliverables.filter (fun d => decide (¬ d.job_id = jobId)) }
       match job.worker_id with
       | some w =>
         { db1 with messages :=
           { id := msgId
             job_id := jobId
             agent_id := agentId
             worker_id := w
             sender_type := .agent
             message := "Job rejected: " ++ reason
             message_type := "system" } :: db1.messages }
       | none => db1) := by
  unfold rejectApply rejectReleaseRow
  cases job.worker_id <;> simp

/-! ## Success-case elimination lemmas -/

theorem acceptJob_ok {db db' : DB} {u : User} {jobId : String} {now : Nat}
    (h : acceptJob db u jobId now = .ok db') :
    ∃ job, db.jobs.find?
        (fun j => decide (j.id = jobId ∧ j.status = Status.available)) = some job ∧
      trustIndex job.required_trust_level ≤ trustIndex u.trust_level ∧
      db' = updateJob db jobId (fun j =>
        { j with status := .assigned, worker_id := some u.id, assigned_at := some now }) := by
  unfold acceptJob at h
  rcases hf : db.jobs.find?
      (fun j => decide (j.id = jobId ∧ j.status = Status.available)) with _ | job
  · rw [hf] at h
    exact absurd h (by simp)
  · rw [hf] at h
    dsimp only at h
    by_cases hlt : trustIndex u.trust_level < trustIndex job.required_trust_level
    · rw [if_pos hlt] at h
      exact absurd h (by simp)
    · rw [if_neg hlt] at h
      refine ⟨job, hf, by omega, ?_⟩
      exact ((Except.ok.injEq _ _).mp h).symm

theorem startJob_ok {db db' : DB} {workerId jobId : String} {now : Nat}
    (h : startJob db workerId jobId now = .ok db') :
    ∃ job, db.jobs.find? (fun j =>
        decide (j.id = jobId ∧ j.worker_id = some workerId ∧
          j.status = Status.assigned)) = some job ∧
      db' = updateJob db jobId (fun j =>
        { j with status := .in_progress, started_at := some now }) := by
  unfold startJob at h
  rcases hf : db.jobs.find? (fun j =>
      decide (j.id = jobId ∧ j.worker_id = some workerId ∧
        j.status = Status.assigned)) with _ | job
  · rw [hf] at h
    exact absurd h (by simp)
  · rw [hf] at h
    dsimp only at h
    exact ⟨job, hf, ((Except.ok.injEq _ _).mp h).symm⟩

theorem uploadDeliverable_ok {db db' : DB} {workerId jobId : String}
    {file : Option FileUpload} {caption : Option String} {fileId delivId : String}
    (h : uploadDeliverable db workerId jobId file caption fileId delivId = .ok db') :
    ∃ job f, db.jobs.find?
        (fun j => decide (j.id = jobId ∧ j.worker_id = some workerId)) = some job ∧
      file = some f ∧
      db'.jobs = db.jobs ∧
      db'.transactions = db.transactions ∧
      db'.deliverables =
        { id := delivId
          job_id := jobId
          worker_id := workerId
          file_type := "photo"
          file_url := "jobs/" ++ jobId ++ "/" ++ fileId ++ "-" ++ f.name
          file_size := f.size
          mime_type := f.mime_type
          caption := caption } :: db.deliverables := by
  unfold uploadDeliverable at h
  rcases hf : db.jobs.find?
      (fun j => decide (j.id = jobId ∧ j.worker_id = some workerId)) with _ | job
  · rw [hf] at h
    exact absurd h (by simp)
  · rw [hf] at h
    dsimp only at h
    rcases file with _ | f
    · exact absurd h (by simp)
    · dsimp only at h
      have hdb := ((Except.ok.injEq _ _).mp h).symm
      subst hdb
      exact ⟨job, f, hf, rfl, rfl, rfl, rfl⟩

theorem completeJob_ok {db db' : DB} {workerId jobId : String} {now : Nat}
    (h : completeJob db workerId jobId now = .ok db') :
    ∃ job, db.jobs.find? (fun j =>
        decide (j.id = jobId ∧ j.worker_id = some workerId ∧
          j.status = Status.in_progress)) = some job ∧
      (delsOf db.deliverables jobId).length ≠ 0 ∧
      db' = updateJob db jobId (fun j =>
        { j with status := .submitted, submitted_at := some now }) := by
  unfold completeJob at h
  rcases hf : db.jobs.find? (fun j =>
      decide (j.id = jobId ∧ j.worker_id = some workerId ∧
        j.status = Status.in_progress)) with _ | job
  · rw [hf] at h
    exact absurd h (by simp)
  · rw [hf] at h
    dsimp only at h
    by_cases hc : (delsOf db.deliverables jobId).length = 0
    · rw [if_pos hc] at h
      exact absurd h (by simp)
    · rw [if_neg hc] at h
      exact ⟨job, hf, hc, ((Except.ok.injEq _ _).mp h).symm⟩

theorem approveJob_ok {db db' : DB} {agentId jobId : String} {tip : Option Rat}
    {tc : Option String} {now : Nat} {t1 t2 : String} {rel : Except Unit Unit}
    (h : approveJob db agentId jobId tip tc now t1 t2 rel = .ok db') :
    ∃ job, db.jobs.find? (fun j =>
        decide (j.id = jobId ∧ j.agent_id = agentId ∧
          j.status = Status.submitted)) = some job ∧
      db' = approveApply db agentId jobId job tip tc now t1 t2 := by
  unfold approveJob at h
  rcases hf : db.jobs.find? (fun j =>
      decide (j.id = jobId ∧ j.agent_id = agentId ∧
        j.status = Status.submitted)) with _ | job
  · rw [hf] at h
    exact absurd h (by simp)
  · rw [hf] at h
    dsimp only at h
    exact ⟨job, hf, ((Except.ok.injEq _ _).mp h).symm⟩

theorem rejectJob_ok {db db' : DB} {agentId jobId : String} {reason : Option String}
    {keep : Option JVal} {msgId : String}
    (h : rejectJob db agentId jobId reason keep msgId = .ok db') :
    ∃ job r, reason = some r ∧ r ≠ "" ∧
      db.jobs.find? (fun j =>
        decide (j.id = jobId ∧ j.agent_id = agentId ∧
          j.status = Status.submitted)) = some job ∧
      db' = rejectApply db agentId jobId job r keep msgId := by
  unfold rejectJob at h
  rcases reason with _ | r
  · exact absurd h (by simp)
  · dsimp only at h
    by_cases hr : r = ""
    · rw [if_pos hr] at h
      exact absurd h (by simp)
    · rw [if_neg hr] at h
      rcases hf : db.jobs.find? (fun j =>
          decide (j.id = jobId ∧ j.agent_id = agentId ∧
            j.status = Status.submitted)) with _ | job
      · rw [hf] at h
        exact absurd h (by simp)
      · rw [hf] at h
        dsimp only at h
        exact ⟨job, r, rfl, hr, hf, ((Except.ok.injEq _ _).mp h).symm⟩

theorem cancelJob_ok {db db' : DB} {agentId jobId : String} {reason : Option String}
    {txnId msgId : String}
    (h : cancelJob db agentId jobId reason txnId msgId = .ok db') :
    ∃ job, db.jobs.find?
        (fun j => decide (j.id = jobId ∧ j.agent_id = agentId)) = some job ∧
      job.status ≠ Status.submitted ∧ job.status ≠ Status.completed ∧
      job.status ≠ Status.cancelled ∧
      db' = cancelApply db agentId jobId job reason txnId msgId := by
  unfold cancelJob at h
  rcases hf : db.jobs.find?
      (fun j => decide (j.id = jobId ∧ j.agent_id = agentId)) with _ | job
  · rw [hf] at h
    exact absurd h (by simp)
  · rw [hf] at h
    dsimp only at h
    by_cases h1 : job.status = Status.submitted
    · rw [if_pos h1] at h
      exact absurd h (by simp)
    · rw [if_neg h1] at h
      by_cases h2 : job.status = Status.completed
      · rw [if_pos h2] at h
        exact absurd h (by simp)
      · rw [if_neg h2] at h
        by_cases h3 : job.status = Status.cancelled
        · rw [if_pos h3] at h
          exact absurd h (by simp)
        · rw [if_neg h3] at h
          exact ⟨job, hf, h1, h2, h3, ((Except.ok.injEq _ _).mp h).symm⟩

theorem createJob_ok {db db' : DB} {agentId : String} {b : CreateJobBody}
    {holdRes : HoldResult} {jobId : String} {now : Nat}
    (h : createJob db agentId b holdRes jobId now = .ok db') :
    ∃ holdId, holdRes = .ok holdId ∧
      db'.jobs = newJobOf agentId b holdId jobId :: db.jobs ∧
      db'.transactions = db.transactions ∧
      db'.deliverables = db.deliverables := by
  unfold createJob at h
  split at h
  · exact absurd h (by simp)
  · split at h
    · exact absurd h (by simp)
    · split at h
      · exact absurd h (by simp)
      · split at h
        · exact absurd h (by simp)
        · split at h
          · exact absurd h (by simp)
          · split at h
            · exact absurd h (by simp)
            · split at h
              · exact absurd h (by simp)
              · rcases holdRes with holdId | _ | _
                · dsimp only at h
                  have hdb := ((Except.ok.injEq _ _).mp h).symm
                  subst hdb
                  exact ⟨holdId, rfl, rfl, rfl, rfl⟩
                · exact absurd h (by simp)
                · exact absurd h (by simp)

theorem submitReview_ok {db db' : DB} {agentId jobId : String} {rating : Rat}
    {reviewId : String}
    (h : submitReview db agentId jobId rating reviewId = .ok db') :
    db'.jobs = db.jobs ∧ db'.transactions = db.transactions ∧
      db'.deliverables = db.deliverables := by
  unfold submitReview at h
  split at h
  · exact absurd h (by simp)
  · rcases hf : db.jobs.find? (fun j =>
        decide (j.id = jobId ∧ j.agent_id = agentId ∧
          j.status = Status.completed)) with _ | job
    · rw [hf] at h
      exact absurd h (by simp)
    · rw [hf] at h
      dsimp only at h
      rcases hr : db.reviews.find? (fun r => decide (r.job_id = jobId)) with _ | rv
      · rw [hr] at h
        dsimp only at h
        have hdb := ((Except.ok.injEq _ _).mp h).symm
        subst hdb
        exact ⟨rfl, rfl, rfl⟩
      · rw [hr] at h
        exact absurd h (by simp)

theorem agentSendMessage_ok {db db' : DB} {agentId jobId text : String}
    {mt : Option String} {msgId : String}
    (h : agentSendMessage db agentId jobId text mt msgId = .ok db') :
    db'.jobs = db.jobs ∧ db'.transactions = db.transactions ∧
      db'.deliverables = db.deliverables := by
  unfold agentSendMessage at h
  split at h
  · exact absurd h (by simp)
  · rcases hf : db.jobs.find?
        (fun j => decide (j.id = jobId ∧ j.agent_id = agentId)) with _ | job
    · rw [hf] at h
      exact absurd h (by simp)
    · rw [hf] at h
      dsimp only at h
      rcases hw : job.worker_id with _ | w
      · rw [hw] at h
        exact absurd h (by simp)
      · rw [hw] at h
        dsimp only at h
        have hdb := ((Except.ok.injEq _ _).mp h).symm
        subst hdb
        exact ⟨rfl, rfl, rfl⟩

theorem workerSendMessage_ok {db db' : DB} {workerId jobId text : String}
    {mt : Option String} {msgId : String}
    (h : workerSendMessage db workerId jobId text mt msgId = .ok db') :
    db'.jobs = db.jobs ∧ db'.transactions = db.transactions ∧
      db'.deliverables = db.deliverables := by
  unfold workerSendMessage at h
  split at h
  · exact absurd h (by simp)
  · rcases hf : db.jobs.find?
        (fun j => decide (j.id = jobId ∧ j.worker_id = some workerId)) with _ | job
    · rw [hf] at h
      exact absurd h (by simp)
    · rw [hf] at h
      dsimp only at h
      have hdb := ((Except.ok.injEq _ _).mp h).symm
      subst hdb
      exact ⟨rfl, rfl, rfl⟩

theorem requestWithdrawal_ok {db db' : DB} {userId : String} {amount : Rat}
    {currency destination txnId : String}
    (h : requestWithdrawal db userId amount currency destination txnId = .ok db') :
    ∃ t : Txn, t.job_id = none ∧
      db'.jobs = db.jobs ∧ db'.transactions = t :: db.transactions ∧
      db'.deliverables = db.deliverables := by
  unfold requestWithdrawal at h
  split at h
  · exact absurd h (by simp)
  · split at h
    · exact absurd h (by simp)
    · split at h
      · exact absurd h (by simp)
      · rcases hf : db.users.find? (fun u => decide (u.id = userId)) with _ | u
        · rw [hf] at h
          exact absurd h (by simp)
        · rw [hf] at h
          dsimp only at h
          split at h
          · exact absurd h (by simp)
          · split at h
            · exact absurd h (by simp)
            · split at h
              · exact absurd h (by simp)
              · have hdb := ((Except.ok.injEq _ _).mp h).symm
                subst hdb
                exact ⟨_, rfl, rfl, rfl, rfl⟩

theorem registerUser_ok {db db' : DB} {name email password userId : String}
    (h : registerUser db name email password userId = .ok db') :
    db'.jobs = db.jobs ∧ db'.transactions = db.transactions ∧
      db'.deliverables = db.deliverables := by
  unfold registerUser at h
  split at h
  · exact absurd h (by simp)
  · split at h
    · exact absurd h (by simp)
    · rcases hf : db.users.find? (fun u => decide (u.email = email)) with _ | u
      · rw [hf] at h
        dsimp only at h
        have hdb := ((Except.ok.injEq _ _).mp h).symm
        subst hdb
        exact ⟨rfl, rfl, rfl⟩
      · rw [hf] at h
        exact absurd h (by simp)

theorem registerAgentRow_ok {db db' : DB} {agentId : String}
    (h : registerAgentRow db agentId = .ok db') :
    db'.jobs = db.jobs ∧ db'.transactions = db.transactions ∧
      db'.deliverables = db.deliverables := by
  unfold registerAgentRow at h
  rcases hf : db.agents.find? (fun a => decide (a.id = agentId)) with _ | a
  · rw [hf] at h
    dsimp only at h
    have hdb := ((Except.ok.injEq _ _).mp h).symm
    subst hdb
    exact ⟨rfl, rfl, rfl⟩
  · rw [hf] at h
    dsimp only at h
    have hdb := ((Except.ok.injEq _ _).mp h).symm
    subst hdb
    exact ⟨rfl, rfl, rfl⟩

/-! ## Invariant preservation -/

theorem jpTxns_append {ts1 ts2 : List Txn} {jid : String} :
    jpTxns (ts1 ++ ts2) jid = jpTxns ts1 jid ++ jpTxns ts2 jid := by
  simp [jpTxns, List.filter_append]

theorem bonusTxns_append {ts1 ts2 : List Txn} {jid : String} :
    bonusTxns (ts1 ++ ts2) jid = bonusTxns ts1 jid ++ bonusTxns ts2 jid := by
  simp [bonusTxns, List.filter_append]

theorem JobInv_congr {ts1 ts2 : List Txn} {j : Job}
    (hjp : jpTxns ts1 j.id = jpTxns ts2 j.id)
    (hb : bonusTxns ts1 j.id = bonusTxns ts2 j.id)
    (h : JobInv ts2 j) : JobInv ts1 j := by
  unfold JobInv at h ⊢
  rw [hjp, hb]
  exact h

theorem storeInv_of_same {db db' : DB}
    (hj : db'.jobs = db.jobs) (ht : db'.transactions = db.transactions)
    (hd : db'.deliverables = db.deliverables) (h : StoreInv db) : StoreInv db' := by
  unfold StoreInv at h ⊢
  rw [hj, ht, hd]
  exact h

/-- Master preservation lemma for the operations that rewrite one job row
and prepend transactions referencing only that job, leaving deliverables
unchanged. -/
theorem storeInv_update_core {db db' : DB} {jobId : String} {f : Job → Job}
    {job : Job} {s : List Txn}
    (hInv : StoreInv db)
    (hmem : job ∈ db.jobs) (hid : job.id = jobId)
    (hf_id : ∀ j, (f j).id = j.id)
    (hstat : ∀ d ∈ db'.deliverables, d.job_id = jobId → (f job).status ≠ Status.available)
    (hts : ∀ t ∈ s, t.job_id = some jobId)
    (hJobNew : JobInv (s ++ db.transactions) (f job))
    (hjobs : db'.jobs = db.jobs.map (fun j => if j.id = jobId then f j else j))
    (htxns : db'.transactions = s ++ db.transactions)
    (hdels : ∀ d ∈ db'.deliverables, d ∈ db.deliverables) : StoreInv db' := by
  obtain ⟨hnd, href, hdel, hjinv⟩ := hInv
  have himg : ∀ j ∈ db.jobs,
      (if j.id = jobId then f j else j) ∈ db'.jobs := by
    intro j hj
    rw [hjobs]
    exact List.mem_map_of_mem _ hj
  have himg_id : ∀ j : Job, (if j.id = jobId then f j else j).id = j.id := by
    intro j
    by_cases hc : j.id = jobId <;> simp [hc, hf_id]
  refine ⟨?_, ?_, ?_, ?_⟩
  · rw [hjobs, map_id_update hf_id]
    exact hnd
  · intro t ht jid hjid
    rw [htxns] at ht
    rcases List.mem_append.mp ht with hnew | hold
    · have : t.job_id = some jobId := hts t hnew
      rw [this] at hjid
      have hjeq : jid = jobId := by
        exact (Option.some.injEq _ _).mp hjid.symm
      refine ⟨f job, ?_, ?_⟩
      · have := himg job hmem
        rw [if_pos hid] at this
        exact this
      · rw [hf_id, hid, hjeq]
    · obtain ⟨j, hj, hjd⟩ := href t hold jid hjid
      refine ⟨if j.id = jobId then f j else j, himg j hj, ?_⟩
      rw [himg_id]
      exact hjd
  · intro d hd
    obtain ⟨j, hj, hjd, hjs⟩ := hdel d (hdels d hd)
    by_cases hc : j.id = jobId
    · have hje : j = job := job_id_inj hnd hj hmem (by rw [hc, hid])
      refine ⟨f job, ?_, ?_, hstat d hd (by rw [← hjd, hc])⟩
      · have := himg job hmem
        rw [if_pos hid] at this
        exact this
      · rw [hf_id, hid, ← hc, hjd]
    · refine ⟨if j.id = jobId then f j else j, himg j hj, ?_, ?_⟩
      · rw [himg_id]
        exact hjd
      · rw [if_neg hc]
        exact hjs
  · intro k hk
    rw [hjobs] at hk
    obtain ⟨j, hj, rfl⟩ := List.mem_map.mp hk
    rw [htxns]
    by_cases hc : j.id = jobId
    · have hje : j = job := job_id_inj hnd hj hmem (by rw [hc, hid])
      rw [if_pos hc, hje]
      exact hJobNew
    · rw [if_neg hc]
      have hjp0 : jpTxns s j.id = [] := by
        apply jpTxns_eq_nil_of_no_ref
        intro t ht heq
        rw [hts t ht] at heq
        exact hc ((Option.some.injEq _ _).mp heq).symm
      have hb0 : bonusTxns s j.id = [] := by
        apply bonusTxns_eq_nil_of_no_ref
        intro t ht heq
        rw [hts t ht] at heq
        exact hc ((Option.some.injEq _ _).mp heq).symm
      refine JobInv_congr ?_ ?_ (hjinv j hj)
      · rw [jpTxns_append, hjp0, List.nil_append]
      · rw [bonusTxns_append, hb0, List.nil_append]

theorem storeInv_accept {db db' : DB} {u : User} {jobId : String} {now : Nat}
    (hInv : StoreInv db) (h : acceptJob db u jobId now = .ok db') : StoreInv db' := by
  obtain ⟨job, hf, _, hdb⟩ := acceptJob_ok h
  have hfs := find?_decide_some hf
  have hmem := hfs.1
  have hid := hfs.2.1
  have hav := hfs.2.2
  subst hdb
  obtain ⟨_, _, _, hpre⟩ := hInv.2.2.2 job hmem
  have hjb := hpre (Or.inl hav)
  refine storeInv_update_core
    (f := fun j =>
      { j with status := .assigned, worker_id := some u.id, assigned_at := some now })
    (s := []) hInv hmem hid ?_ ?_ ?_ ?_ ?_ ?_ ?_
  · intro j
    rfl
  · intro d _ _
    simp
  · simp
  · rw [List.nil_append]
    refine ⟨by simp, by simp, by simp, ?_⟩
    intro _
    exact ⟨by simpa using hjb.1, by simpa using hjb.2⟩
  · simp [updateJob]
  · simp [updateJob]
  · intro d hd
    simpa [updateJob] using hd

theorem storeInv_start {db db' : DB} {workerId jobId : String} {now : Nat}
    (hInv : StoreInv db) (h : startJob db workerId jobId now = .ok db') : StoreInv db' := by
  obtain ⟨job, hf, hdb⟩ := startJob_ok h
  have hfs := find?_decide_some hf
  have hmem := hfs.1
  have hid := hfs.2.1
  have hw := hfs.2.2.1
  have hst := hfs.2.2.2
  subst hdb
  obtain ⟨_, _, _, hpre⟩ := hInv.2.2.2 job hmem
  have hjb := hpre (Or.inr (Or.inl hst))
  refine storeInv_update_core
    (f := fun j => { j with status := .in_progress, started_at := some now })
    (s := []) hInv hmem hid ?_ ?_ ?_ ?_ ?_ ?_ ?_
  · intro j
    rfl
  · intro d _ _
    simp
  · simp
  · rw [List.nil_append]
    refine ⟨by simp, ?_, by simp, ?_⟩
    · intro _
      simpa [hw] using rfl
    · intro _
      exact ⟨by simpa using hjb.1, by simpa using hjb.2⟩
  · simp [updateJob]
  · simp [updateJob]
  · intro d hd
    simpa [updateJob] using hd

theorem storeInv_complete {db db' : DB} {workerId jobId : String} {now : Nat}
    (hInv : StoreInv db) (h : completeJob db workerId jobId now = .ok db') :
    StoreInv db' := by
  obtain ⟨job, hf, _, hdb⟩ := completeJob_ok h
  have hfs := find?_decide_some hf
  have hmem := hfs.1
  have hid := hfs.2.1
  have hw := hfs.2.2.1
  have hst := hfs.2.2.2
  subst hdb
  obtain ⟨_, _, _, hpre⟩ := hInv.2.2.2 job hmem
  have hjb := hpre (Or.inr (Or.inr (Or.inl hst)))
  refine storeInv_update_core
    (f := fun j => { j with status := .submitted, submitted_at := some now })
    (s := []) hInv hmem hid ?_ ?_ ?_ ?_ ?_ ?_ ?_
  · intro j
    rfl
  · intro d _ _
    simp
  · simp
  · rw [List.nil_append]
    refine ⟨by simp, ?_, by simp, ?_⟩
    · intro _
      simpa [hw] using rfl
    · intro _
      exact ⟨by simpa using hjb.1, by simpa using hjb.2⟩
  · simp [updateJob]
  · simp [updateJob]
  · intro d hd
    simpa [updateJob] using hd

theorem storeInv_approve {db db' : DB} {agentId jobId : String} {tip : Option Rat}
    {tc : Option String} {now : Nat} {t1 t2 : String} {rel : Except Unit Unit}
    (hInv : StoreInv db)
    (h : approveJob db agentId jobId tip tc now t1 t2 rel = .ok db') : StoreInv db' := by
  obtain ⟨job, hf, hdb⟩ := approveJob_ok h
  have hfs := find?_decide_some hf
  have hmem := hfs.1
  have hid := hfs.2.1
  have hst := hfs.2.2.2
  obtain ⟨_, hws, _, hpre⟩ := hInv.2.2.2 job hmem
  obtain ⟨w, hw⟩ := Option.isSome_iff_exists.mp (hws (Or.inr (Or.inr hst)))
  have hjb := hpre (Or.inr (Or.inr (Or.inr hst)))
  subst hdb
  refine storeInv_update_core
    (f := fun j => { j with status := .completed, completed_at := some now })
    (s := (if tipPos tip then
        [tipTxnOf job jobId t2 (tip.getD 0) (tc.getD job.payment_currency)] else []) ++
      [payTxnOf job jobId t1])
    hInv hmem hid ?_ ?_ ?_ ?_ ?_ ?_ ?_
  · intro j
    rfl
  · intro d _ _
    simp
  · intro t ht
    rcases List.mem_append.mp ht with h1 | h2
    · split at h1
      · rw [List.mem_singleton.mp h1]
        rfl
      · exact absurd h1 (List.not_mem_nil t)
    · rw [List.mem_singleton.mp h2]
      rfl
  · refine ⟨by simp, by simp, ?_, by simp⟩
    intro _
    refine ⟨by simp, w, by simpa using hw, payTxnOf job jobId t1, ?_, ?_, ?_⟩
    · have hjp1 : jpTxns [payTxnOf job jobId t1] job.id = [payTxnOf job jobId t1] := by
        simp [jpTxns, List.filter_cons, payTxnOf, hid]
      have hjp2 : jpTxns (if tipPos tip then
          [tipTxnOf job jobId t2 (tip.getD 0) (tc.getD job.payment_currency)]
          else []) job.id = [] := by
        split
        · simp [jpTxns, List.filter_cons, tipTxnOf]
        · rfl
      show jpTxns _ job.id = _
      rw [jpTxns_append, jpTxns_append, hjp2, hjb.1, hjp1]
      simp
    · simp [payTxnOf, hw]
    · simp [payTxnOf]
  · exact approveApply_jobs db agentId jobId job tip tc now t1 t2
  · rw [approveApply_transactions db agentId jobId job tip tc now t1 t2]
    simp
  · rw [approveApply_deliverables db agentId jobId job tip tc now t1 t2]
    intro d hd
    exact hd

theorem storeInv_cancel {db db' : DB} {agentId jobId : String}
    {reason : Option String} {txnId msgId : String}
    (hInv : StoreInv db)
    (h : cancelJob db agentId jobId reason txnId msgId = .ok db') : StoreInv db' := by
  obtain ⟨job, hf, hs1, hs2, hs3, hdb⟩ := cancelJob_ok h
  have hfs := find?_decide_some hf
  have hmem := hfs.1
  have hid := hfs.2.1
  subst hdb
  by_cases hip : job.status = Status.in_progress
  · obtain ⟨_, hws, _, _⟩ := hInv.2.2.2 job hmem
    obtain ⟨w, hw⟩ := Option.isSome_iff_exists.mp (hws (Or.inr (Or.inl hip)))
    refine storeInv_update_core
      (f := fun j => { j with status := .cancelled })
      (s := [compTxnOf job jobId txnId w])
      hInv hmem hid ?_ ?_ ?_ ?_ ?_ ?_ ?_
    · intro j
      rfl
    · intro d _ _
      simp
    · intro t ht
      rw [List.mem_singleton.mp ht]
      rfl
    · refine ⟨by simp, by simp, by simp, by simp⟩
    · exact cancelApply_jobs db agentId jobId job reason txnId msgId
    · rw [cancelApply_transactions_in_progress db agentId jobId job reason txnId msgId
        hw hip]
      simp
    · rw [cancelApply_deliverables db agentId jobId job reason txnId msgId]
      intro d hd
      exact hd
  · refine storeInv_update_core
      (f := fun j => { j with status := .cancelled })
      (s := [])
      hInv hmem hid ?_ ?_ ?_ ?_ ?_ ?_ ?_
    · intro j
      rfl
    · intro d _ _
      simp
    · simp
    · refine ⟨by simp, by simp, by simp, by simp⟩
    · exact cancelApply_jobs db agentId jobId job reason txnId msgId
    · rw [cancelApply_transactions_other db agentId jobId job reason txnId msgId hip]
      simp
    · rw [cancelApply_deliverables db agentId jobId job reason txnId msgId]
      intro d hd
      exact hd

theorem rejectApply_jobs_keep {db : DB} {agentId jobId : String} {job : Job}
    {r : String} {keep : Option JVal} {msgId : String}
    (hk : keep ≠ some (JVal.jbool false)) :
    (rejectApply db agentId jobId job r keep msgId).jobs =
      db.jobs.map (fun j => if j.id = jobId then rejectKeepRow r j else j) := by
  rw [rejectApply_keep db agentId jobId job r keep msgId hk]
  cases job.worker_id <;> simp [updateJob]

theorem rejectApply_transactions_keep {db : DB} {agentId jobId : String} {job : Job}
    {r : String} {keep : Option JVal} {msgId : String}
    (hk : keep ≠ some (JVal.jbool false)) :
    (rejectApply db agentId jobId job r keep msgId).transactions =
      db.transactions := by
  rw [rejectApply_keep db agentId jobId job r keep msgId hk]
  cases job.worker_id <;> simp [updateJob]

theorem rejectApply_deliverables_keep {db : DB} {agentId jobId : String} {job : Job}
    {r : String} {keep : Option JVal} {msgId : String}
    (hk : keep ≠ some (JVal.jbool false)) :
    (rejectApply db agentId jobId job r keep msgId).deliverables =
      db.deliverables := by
  rw [rejectApply_keep db agentId jobId job r keep msgId hk]
  cases job.worker_id <;> simp [updateJob]

theorem rejectApply_jobs_release {db : DB} {agentId jobId : String} {job : Job}
    {r : String} {msgId : String} :
    (rejectApply db agentId jobId job r (some (JVal.jbool false)) msgId).jobs =
      db.jobs.map (fun j => if j.id = jobId then rejectReleaseRow r j else j) := by
  rw [rejectApply_release db agentId jobId job r msgId]
  cases job.worker_id <;> simp [updateJob]

theorem rejectApply_transactions_release {db : DB} {agentId jobId : String}
    {job : Job} {r : String} {msgId : String} :
    (rejectApply db agentId jobId job r (some (JVal.jbool false))
        msgId).transactions = db.transactions := by
  rw [rejectApply_release db agentId jobId job r msgId]
  cases job.worker_id <;> simp [updateJob]

theorem rejectApply_deliverables_release {db : DB} {agentId jobId : String}
    {job : Job} {r : String} {msgId : String} :
    (rejectApply db agentId jobId job r (some (JVal.jbool false))
        msgId).deliverables =
      db.deliverables.filter (fun d => decide (¬ d.job_id = jobId)) := by
  rw [rejectApply_release db agentId jobId job r msgId]
  cases job.worker_id <;> simp [updateJob]

theorem storeInv_reject {db db' : DB} {agentId jobId : String}
    {reason : Option String} {keep : Option JVal} {msgId : String}
    (hInv : StoreInv db)
    (h : rejectJob db agentId jobId reason keep msgId = .ok db') : StoreInv db' := by
  obtain ⟨job, r, _, _, hf, hdb⟩ := rejectJob_ok h
  have hfs := find?_decide_some hf
  have hmem := hfs.1
  have hid := hfs.2.1
  have hst := hfs.2.2.2
  obtain ⟨_, hws, _, hpre⟩ := hInv.2.2.2 job hmem
  have hjb := hpre (Or.inr (Or.inr (Or.inr hst)))
  subst hdb
  by_cases hk : keep = some (JVal.jbool false)
  · subst hk
    refine storeInv_update_core
      (f := rejectReleaseRow r) (s := [])
      hInv hmem hid ?_ ?_ ?_ ?_ ?_ ?_ ?_
    · intro j
      rfl
    · intro d hd hdj
      rw [rejectApply_deliverables_release] at hd
      have := (List.mem_filter.mp hd).2
      simp only [decide_eq_true_eq] at this
      exact absurd hdj this
    · simp
    · rw [List.nil_append]
      refine ⟨by simp [rejectReleaseRow], by simp [rejectReleaseRow], ?_, ?_⟩
      · intro hco
        exact absurd hco (by simp [rejectReleaseRow])
      · intro _
        refine ⟨?_, ?_⟩
        · simpa [rejectReleaseRow] using hjb.1
        · simpa [rejectReleaseRow] using hjb.2
    · exact rejectApply_jobs_release
    · rw [rejectApply_transactions_release]
      simp
    · intro d hd
      rw [rejectApply_deliverables_release] at hd
      exact (List.mem_filter.mp hd).1
  · refine storeInv_update_core
      (f := rejectKeepRow r) (s := [])
      hInv hmem hid ?_ ?_ ?_ ?_ ?_ ?_ ?_
    · intro j
      rfl
    · intro d _ _
      simp [rejectKeepRow]
    · simp
    · rw [List.nil_append]
      refine ⟨by simp [rejectKeepRow], ?_, by simp [rejectKeepRow], ?_⟩
      · intro _
        have : (rejectKeepRow r job).worker_id = job.worker_id := rfl
        rw [this]
        exact hws (Or.inr (Or.inr hst))
      · intro _
        refine ⟨?_, ?_⟩
        · simpa [rejectKeepRow] using hjb.1
        · simpa [rejectKeepRow] using hjb.2
    · exact rejectApply_jobs_keep hk
    · rw [rejectApply_transactions_keep hk]
      simp
    · rw [rejectApply_deliverables_keep hk]
      intro d hd
      exact hd

theorem storeInv_upload {db db' : DB} {workerId jobId : String}
    {file : Option FileUpload} {caption : Option String} {fileId delivId : String}
    (hInv : StoreInv db)
    (h : uploadDeliverable db workerId jobId file caption fileId delivId = .ok db') :
    StoreInv db' := by
  obtain ⟨job, fl, hf, _, hjobs, htxns, hdels⟩ := uploadDeliverable_ok h
  have hfs := find?_decide_some hf
  have hmem := hfs.1
  have hid := hfs.2.1
  have hw := hfs.2.2
  obtain ⟨hnd, href, hdel, hjinv⟩ := hInv
  have hterm : job.status ≠ Status.available := by
    intro hav
    have hnone := (hjinv job hmem).1 hav
    rw [hnone] at hw
    exact Option.noConfusion hw
  refine ⟨by rw [hjobs]; exact hnd, ?_, ?_, ?_⟩
  · intro t ht jid hjid
    rw [htxns] at ht
    obtain ⟨j, hj, hjd⟩ := href t ht jid hjid
    rw [hjobs]
    exact ⟨j, hj, hjd⟩
  · intro d hd
    rw [hdels] at hd
    rw [hjobs]
    rcases List.mem_cons.mp hd with rfl | hold
    · exact ⟨job, hmem, hid, hterm⟩
    · exact hdel d hold
  · intro j hj
    rw [hjobs] at hj
    rw [htxns]
    exact hjinv j hj

theorem storeInv_create {db db' : DB} {agentId : String} {b : CreateJobBody}
    {holdRes : HoldResult} {jobId : String} {now : Nat}
    (hInv : StoreInv db) (hfresh : ∀ j ∈ db.jobs, j.id ≠ jobId)
    (h : createJob db agentId b holdRes jobId now = .ok db') : StoreInv db' := by
  obtain ⟨holdId, _, hjobs, htxns, hdels⟩ := createJob_ok h
  obtain ⟨hnd, href, hdel, hjinv⟩ := hInv
  have hnotref : ∀ t ∈ db.transactions, t.job_id ≠ some jobId := by
    intro t ht heq
    obtain ⟨j, hj, hjd⟩ := href t ht jobId heq
    exact hfresh j hj hjd
  refine ⟨?_, ?_, ?_, ?_⟩
  · rw [hjobs]
    refine List.nodup_cons.mpr ⟨?_, hnd⟩
    intro hmem
    obtain ⟨j, hj, hjd⟩ := List.mem_map.mp hmem
    exact hfresh j hj (by simpa [newJobOf] using hjd)
  · intro t ht jid hjid
    rw [htxns] at ht
    obtain ⟨j, hj, hjd⟩ := href t ht jid hjid
    rw [hjobs]
    exact ⟨j, List.mem_cons_of_mem _ hj, hjd⟩
  · intro d hd
    rw [hdels] at hd
    obtain ⟨j, hj, hjd, hjs⟩ := hdel d hd
    rw [hjobs]
    exact ⟨j, List.mem_cons_of_mem _ hj, hjd, hjs⟩
  · intro j hj
    rw [hjobs] at hj
    rw [htxns]
    rcases List.mem_cons.mp hj with rfl | hold
    · refine ⟨fun _ => rfl, ?_, ?_, ?_⟩
      · intro hco
        rcases hco with hco | hco | hco <;> exact absurd hco (by simp [newJobOf])
      · intro hco
        exact absurd hco (by simp [newJobOf])
      · intro _
        constructor
        · exact jpTxns_eq_nil_of_no_ref (by simpa [newJobOf] using hnotref)
        · exact bonusTxns_eq_nil_of_no_ref (by simpa [newJobOf] using hnotref)
    · exact hjinv j hold

theorem storeInv_withdraw {db db' : DB} {userId : String} {amount : Rat}
    {currency destination txnId : String}
    (hInv : StoreInv db)
    (h : requestWithdrawal db userId amount currency destination txnId = .ok db') :
    StoreInv db' := by
  obtain ⟨t, htnone, hjobs, htxns, hdels⟩ := requestWithdrawal_ok h
  obtain ⟨hnd, href, hdel, hjinv⟩ := hInv
  refine ⟨by rw [hjobs]; exact hnd, ?_, ?_, ?_⟩
  · intro t' ht' jid hjid
    rw [htxns] at ht'
    rcases List.mem_cons.mp ht' with rfl | hold
    · rw [htnone] at hjid
      exact Option.noConfusion hjid
    · obtain ⟨j, hj, hjd⟩ := href t' hold jid hjid
      rw [hjobs]
      exact ⟨j, hj, hjd⟩
  · intro d hd
    rw [hdels] at hd
    rw [hjobs]
    exact hdel d hd
  · intro j hj
    rw [hjobs] at hj
    rw [htxns]
    refine JobInv_congr ?_ ?_ (hjinv j hj)
    · rw [jpTxns_cons, if_neg]
      intro hc
      rw [htnone] at hc
      exact Option.noConfusion hc.1
    · rw [bonusTxns_cons, if_neg]
      intro hc
      rw [htnone] at hc
      exact Option.noConfusion hc.1

theorem storeInv_step {db db' : DB} (hInv : StoreInv db) (hs : Step db db') :
    StoreInv db' := by
  cases hs with
  | create agentId b holdRes jobId now hfresh h => exact storeInv_create hInv hfresh h
  | accept user jobId now hu h => exact storeInv_accept hInv h
  | start workerId jobId now h => exact storeInv_start hInv h
  | upload workerId jobId file caption fileId delivId h => exact storeInv_upload hInv h
  | complete workerId jobId now h => exact storeInv_complete hInv h
  | approve agentId jobId tip tipCur now txnId tipTxnId rel h =>
    exact storeInv_approve hInv h
  | reject agentId jobId reason keep msgId h => exact storeInv_reject hInv h
  | cancel agentId jobId reason txnId msgId h => exact storeInv_cancel hInv h
  | review agentId jobId rating reviewId h =>
    obtain ⟨h1, h2, h3⟩ := submitReview_ok h
    exact storeInv_of_same h1 h2 h3 hInv
  | agentMsg agentId jobId text mt msgId h =>
    obtain ⟨h1, h2, h3⟩ := agentSendMessage_ok h
    exact storeInv_of_same h1 h2 h3 hInv
  | workerMsg workerId jobId text mt msgId h =>
    obtain ⟨h1, h2, h3⟩ := workerSendMessage_ok h
    exact storeInv_of_same h1 h2 h3 hInv
  | withdraw userId amount currency destination txnId h => exact storeInv_withdraw hInv h
  | register name email password userId h =>
    obtain ⟨h1, h2, h3⟩ := registerUser_ok h
    exact storeInv_of_same h1 h2 h3 hInv
  | registerAgent agentId h =>
    obtain ⟨h1, h2, h3⟩ := registerAgentRow_ok h
    exact storeInv_of_same h1 h2 h3 hInv

theorem storeInv_reachable {db : DB} (h : Reachable db) : StoreInv db := by
  induction h with
  | init =>
    refine ⟨by simp [dbInit], ?_, ?_, ?_⟩ <;> simp [dbInit]
  | step _ hs ih => exact storeInv_step ih hs

/-! ## Rating-average lemmas -/

theorem ratingUpdate_formula (a x : Rat) (k : Nat) :
    ratingUpdate a k x = ((a * k + x) / (k + 1), k + 1) := rfl

theorem ratingUpdate_of_div (s : Rat) (k : Nat) (hk : k ≠ 0) (x : Rat) :
    ratingUpdate (s / k) k x = ((s + x) / (k + 1), k + 1) := by
  unfold ratingUpdate
  have hk0 : (k : Rat) ≠ 0 := Nat.cast_ne_zero.mpr hk
  rw [div_mul_cancel₀ _ hk0]

theorem applyRatings_from_sum (rs : List Rat) :
    ∀ (s : Rat) (k : Nat), k ≠ 0 →
      applyRatings (s / k, k) rs = ((s + rs.sum) / (k + rs.length), k + rs.length) := by
  induction rs with
  | nil =>
    intro s k hk
    simp [applyRatings]
  | cons x xs ih =>
    intro s k hk
    have h1 : applyRatings (s / k, k) (x :: xs) =
        applyRatings (ratingUpdate (s / k) k x) xs := rfl
    rw [h1, ratingUpdate_of_div s k hk x]
    have h2 : ((s + x) / ((k : Rat) + 1), k + 1) =
        ((s + x) / ((k + 1 : Nat) : Rat), k + 1) := by
      push_cast
      rfl
    rw [h2, ih (s + x) (k + 1) (Nat.succ_ne_zero k)]
    simp only [List.sum_cons, List.length_cons, Prod.mk.injEq]
    refine ⟨?_, by omega⟩
    push_cast
    ring_nf

theorem applyRatings_mean (a : Rat) (rs : List Rat) (h : rs ≠ []) :
    applyRatings (a, 0) rs = (rs.sum / rs.length, rs.length) := by
  rcases rs with _ | ⟨x, xs⟩
  · exact absurd rfl h
  · have h1 : applyRatings (a, 0) (x :: xs) =
        applyRatings (ratingUpdate a 0 x) xs := rfl
    have h2 : ratingUpdate a 0 x = (x / (1 : Nat), 1) := by
      unfold ratingUpdate
      norm_num
    rw [h1, h2, applyRatings_from_sum xs x 1 one_ne_zero]
    simp only [List.sum_cons, List.length_cons, Prod.mk.injEq]
    refine ⟨?_, by omega⟩
    push_cast
    ring_nf

theorem applyRatings_perm (a : Rat) (rs rs' : List Rat) (h : rs.Perm rs') :
    applyRatings (a, 0) rs = applyRatings (a, 0) rs' := by
  rcases rs with _ | ⟨x, xs⟩
  · rw [List.Perm.eq_nil h.symm]
  · have hne : (x :: xs) ≠ [] := by simp
    have hne' : rs' ≠ [] := by
      intro hc
      rw [hc] at h
      exact hne (List.Perm.eq_nil h)
    rw [applyRatings_mean a _ hne, applyRatings_mean a rs' hne',
      List.Perm.sum_eq h, List.Perm.length_eq h]

/-! ## Room-sweep lemmas -/

theorem isStale_of_old {now : Nat} {s : Session}
    (h : s.lastPing + 60000 < now) : isStale now s = true := by
  unfold isStale
  simp only [decide_eq_true_eq]
  omega

theorem stale_not_in_sweep {now : Nat} {sessions : List Session} {s : Session}
    (h : s.lastPing + 60000 < now) : s ∉ sweepSessions now sessions := by
  intro hmem
  have := (List.mem_filter.mp hmem).2
  rw [isStale_of_old h] at this
  simp at this

theorem stale_in_swept {now : Nat} {sessions : List Session} {s : Session}
    (hmem : s ∈ sessions) (h : s.lastPing + 60000 < now) :
    s ∈ sweptSessions now sessions :=
  List.mem_filter.mpr ⟨hmem, isStale_of_old h⟩

theorem not_mem_filter_of_not_mem {α : Type} {l : List α} {p : α → Bool} {a : α}
    (h : a ∉ l) : a ∉ l.filter p := by
  intro hmem
  exact h (List.mem_filter.mp hmem).1

/-! ## A concrete end-to-end run
register worker → register agent → create → accept → start → upload →
complete → approve (with a 2.00 tip). -/

/-- The body of the concrete job creation: a 15.00 photo survey. -/
def bodyW : CreateJobBody :=
  { title := "Photo survey"
    descr := "Take a photo of the storefront"
    category := "photo_survey"
    latitude := 10
    longitude := 20
    payment_amount := 15
    expires_at := 100 }

/-- The registered worker row. -/
def userW : User :=
  { id := "u1"
    email := "alice@example.com"
    trust_level := .basic
    jobs_completed := 0
    total_earned := 0
    rating := 0
    rating_count := 0 }

/-- The uploaded file. -/
def fileW : FileUpload :=
  { name := "photo.jpg", size := 1024, mime_type := "image/jpeg" }

def db1 : DB := applyOp dbInit (registerUser dbInit "Alice" "alice@example.com" "secret" "u1")

def db2 : DB := applyOp db1 (registerAgentRow db1 "agent1")

def db3 : DB := applyOp db2 (createJob db2 "agent1" bodyW (.ok "hold1") "job1" 0)

def db4 : DB := applyOp db3 (acceptJob db3 userW "job1" 1)

def db5 : DB := applyOp db4 (startJob db4 "u1" "job1" 2)

def db6 : DB := applyOp db5 (uploadDeliverable db5 "u1" "job1" (some fileW) none "f1" "d1")

def db7 : DB := applyOp db6 (completeJob db6 "u1" "job1" 3)

def db8 : DB := applyOp db7 (approveJob db7 "agent1" "job1" (some 2) none 4 "t1" "t2" (.error ()))

deriving instance DecidableEq for Except

theorem step_register : registerUser dbInit "Alice" "alice@example.com" "secret" "u1" = .ok db1 := by
  decide

theorem step_registerAgent : registerAgentRow db1 "agent1" = .ok db2 := by
  decide

theorem step_create : createJob db2 "agent1" bodyW (.ok "hold1") "job1" 0 = .ok db3 := by
  decide

theorem step_accept : acceptJob db3 userW "job1" 1 = .ok db4 := by
  decide

theorem step_start : startJob db4 "u1" "job1" 2 = .ok db5 := by
  decide

theorem step_upload :
    uploadDeliverable db5 "u1" "job1" (some fileW) none "f1" "d1" = .ok db6 := by
  decide

theorem step_complete : completeJob db6 "u1" "job1" 3 = .ok db7 := by
  decide

theorem step_approve :
    approveJob db7 "agent1" "job1" (some 2) none 4 "t1" "t2" (.error ()) = .ok db8 := by
  rfl

theorem reach1 : Reachable db1 :=
  Reachable.step Reachable.init (Step.register "Alice" "alice@example.com" "secret" "u1" step_register)

theorem reach2 : Reachable db2 :=
  Reachable.step reach1 (Step.registerAgent "agent1" step_registerAgent)

theorem reach3 : Reachable db3 :=
  Reachable.step reach2
    (Step.create "agent1" bodyW (.ok "hold1") "job1" 0 (by decide) step_create)

theorem reach4 : Reachable db4 :=
  Reachable.step reach3 (Step.accept userW "job1" 1 (by decide) step_accept)

theorem reach5 : Reachable db5 :=
  Reachable.step reach4 (Step.start "u1" "job1" 2 step_start)

theorem reach6 : Reachable db6 :=
  Reachable.step reach5
    (Step.upload "u1" "job1" (some fileW) none "f1" "d1" step_upload)

theorem reach7 : Reachable db7 :=
  Reachable.step reach6 (Step.complete "u1" "job1" 3 step_complete)

theorem reach8 : Reachable db8 :=
  Reachable.step reach7
    (Step.approve "agent1" "job1" (some 2) none 4 "t1" "t2" (.error ()) step_approve)

/-- The single job row of the final state. -/
def jobRow8 : Job := db8.jobs.headD (newJobOf "agent1" bodyW "hold1" "job1")

/-- The single job row right after the upload (status still `assigned`). -/
def jobRow6 : Job := db6.jobs.headD (newJobOf "agent1" bodyW "hold1" "job1")

/-- The deliverable row created by the upload. -/
def delivRow6 : Deliverable :=
  db6.deliverables.headD
    { id := "d1", job_id := "job1", worker_id := "u1", file_type := "photo"
      file_url := "", file_size := 0, mime_type := "", caption := none }

/-- The single job row while in progress. -/
def jobRow5 : Job := db5.jobs.headD (newJobOf "agent1" bodyW "hold1" "job1")

/-- The single job row while submitted. -/
def jobRow7 : Job := db7.jobs.headD (newJobOf "agent1" bodyW "hold1" "job1")

/-- A branch of the run: uploading a deliverable right after acceptance,
while the job is still merely `assigned` (the upload route checks only
the assignment, not the status). -/
def db4u : DB :=
  applyOp db4 (uploadDeliverable db4 "u1" "job1" (some fileW) none "f2" "d2")

theorem step_upload_assigned :
    uploadDeliverable db4 "u1" "job1" (some fileW) none "f2" "d2" = .ok db4u := by
  decide

theorem reach4u : Reachable db4u :=
  Reachable.step reach4
    (Step.upload "u1" "job1" (some fileW) none "f2" "d2" step_upload_assigned)

/-- The deliverable row uploaded while the job was assigned. -/
def delivRow4u : Deliverable :=
  db4u.deliverables.headD
    { id := "d2", job_id := "job1", worker_id := "u1", file_type := "photo"
      file_url := "", file_size := 0, mime_type := "", caption := none }

/-! ## Claim theorems -/

/-- C1: in every reachable store, a completed job has a non-null
completed_at and exactly one job_payment transaction for its assigned
worker with amount equal to the job's payment_amount; and on approval a
single bonus transaction exists exactly when a positive tip_amount was
supplied, while the worker's total_earned grows by payment_amount plus
the credited tip. -/
theorem C1_completed_payment :
    (∀ db : DB, Reachable db → ∀ j ∈ db.jobs, j.status = Status.completed →
      j.completed_at.isSome ∧
      ∃ w, j.worker_id = some w ∧
        ∃ t, jpTxns db.transactions j.id = [t] ∧
          t.user_id = some w ∧ t.amount = j.payment_amount) ∧
    (∀ (db db' : DB) (agentId jobId : String) (tip : Option Rat)
        (tc : Option String) (now : Nat) (t1 t2 : String) (rel : Except Unit Unit),
      Reachable db →
      approveJob db agentId jobId tip tc now t1 t2 rel = .ok db' →
      ∀ j ∈ db.jobs, j.id = jobId →
        bonusTxns db'.transactions jobId =
          (if tipPos tip then
            [tipTxnOf j jobId t2 (tip.getD 0) (tc.getD j.payment_currency)] else []) ∧
        (∀ u ∈ db.users, j.worker_id = some u.id →
          { u with jobs_completed := u.jobs_completed + 1
                   total_earned := u.total_earned + (j.payment_amount + tipValue tip) }
            ∈ db'.users)) := by
  constructor
  · intro db hreach j hj hst
    obtain ⟨_, _, _, hjinv⟩ := storeInv_reachable hreach
    exact (hjinv j hj).2.2.1 hst
  · intro db db' agentId jobId tip tc now t1 t2 rel hreach happrove j hj hid
    obtain ⟨hnd, _, _, hjinv⟩ := storeInv_reachable hreach
    obtain ⟨job, hf, hdb⟩ := approveJob_ok happrove
    have hfs := find?_decide_some hf
    have hje : j = job := job_id_inj hnd hj hfs.1 (by rw [hid, hfs.2.1])
    subst hje
    subst hid
    have hst := hfs.2.2.2
    have hb0 : bonusTxns db.transactions j.id = [] :=
      ((hjinv j hj).2.2.2 (Or.inr (Or.inr (Or.inr hst)))).2
    subst hdb
    constructor
    · rw [approveApply_transactions db agentId j.id j tip tc now t1 t2]
      rw [List.append_cons, bonusTxns_append, bonusTxns_append]
      have hpay : bonusTxns [payTxnOf j j.id t1] j.id = [] := by
        simp [bonusTxns, List.filter_cons, payTxnOf]
      rw [hpay, hb0, List.append_nil, List.append_nil]
      split
      · simp [bonusTxns, List.filter_cons, tipTxnOf]
      · rfl
    · intro u hu hw
      rw [approveApply_users db agentId j.id j tip tc now t1 t2]
      have himg := List.mem_map_of_mem
        (fun u : User => if some u.id = j.worker_id then
          { u with jobs_completed := u.jobs_completed + 1
                   total_earned := u.total_earned + (j.payment_amount + tipValue tip) }
          else u) hu
      dsimp only at himg
      rw [if_pos (by rw [hw])] at himg
      exact himg

theorem C1_completed_payment_witness :
    (Reachable db8 ∧ jobRow8 ∈ db8.jobs ∧ jobRow8.status = Status.completed) ∧
    (jobRow8.completed_at.isSome ∧
      ∃ w, jobRow8.worker_id = some w ∧
        ∃ t, jpTxns db8.transactions jobRow8.id = [t] ∧
          t.user_id = some w ∧ t.amount = jobRow8.payment_amount) :=
  ⟨⟨reach8, by decide, by decide⟩,
    C1_completed_payment.1 db8 reach8 jobRow8 (by decide) (by decide)⟩

theorem find?_none_of_unique {l : List Job} {jobId : String} {j : Job}
    {p : Job → Prop} [DecidablePred p]
    (hnd : (l.map Job.id).Nodup) (hj : j ∈ l) (hid : j.id = jobId)
    (hp : ∀ k, p k → k.id = jobId) (hnotj : ¬ p j) :
    l.find? (fun k => decide (p k)) = none := by
  apply find?_decide_eq_none
  intro a ha hpa
  have ha1 : a.id = jobId := hp a hpa
  have ha2 : a = j := job_id_inj hnd ha hj (by rw [ha1, hid])
  exact hnotj (ha2 ▸ hpa)

/-- C2: each lifecycle transition attempted against a stored job whose
status (or required ownership/assignment) does not match the operation's
precondition fails with the `preconditionFailed` kind, and the committed
store is unchanged — in particular a second approve of a completed job
creates no second payment. -/
theorem C2_precondition_failed_unchanged :
    (∀ (db : DB) (u : User) (jobId : String) (now : Nat) (j : Job),
      (db.jobs.map Job.id).Nodup → j ∈ db.jobs → j.id = jobId →
      j.status ≠ Status.available →
      ∃ msg, acceptJob db u jobId now = .error (.preconditionFailed msg) ∧
        applyOp db (acceptJob db u jobId now) = db) ∧
    (∀ (db : DB) (workerId jobId : String) (now : Nat) (j : Job),
      (db.jobs.map Job.id).Nodup → j ∈ db.jobs → j.id = jobId →
      j.status ≠ Status.assigned ∨ j.worker_id ≠ some workerId →
      ∃ msg, startJob db workerId jobId now = .error (.preconditionFailed msg) ∧
        applyOp db (startJob db workerId jobId now) = db) ∧
    (∀ (db : DB) (workerId jobId : String) (now : Nat) (j : Job),
      (db.jobs.map Job.id).Nodup → j ∈ db.jobs → j.id = jobId →
      j.status ≠ Status.in_progress ∨ j.worker_id ≠ some workerId →
      ∃ msg, completeJob db workerId jobId now = .error (.preconditionFailed msg) ∧
        applyOp db (completeJob db workerId jobId now) = db) ∧
    (∀ (db : DB) (agentId jobId : String) (tip : Option Rat) (tc : Option String)
        (now : Nat) (t1 t2 : String) (rel : Except Unit Unit) (j : Job),
      (db.jobs.map Job.id).Nodup → j ∈ db.jobs → j.id = jobId →
      j.status ≠ Status.submitted ∨ j.agent_id ≠ agentId →
      ∃ msg, approveJob db agentId jobId tip tc now t1 t2 rel =
          .error (.preconditionFailed msg) ∧
        applyOp db (approveJob db agentId jobId tip tc now t1 t2 rel) = db) ∧
    (∀ (db : DB) (agentId jobId r : String) (keep : Option JVal) (msgId : String)
        (j : Job),
      (db.jobs.map Job.id).Nodup → j ∈ db.jobs → j.id = jobId → r ≠ "" →
      j.status ≠ Status.submitted ∨ j.agent_id ≠ agentId →
      ∃ msg, rejectJob db agentId jobId (some r) keep msgId =
          .error (.preconditionFailed msg) ∧
        applyOp db (rejectJob db agentId jobId (some r) keep msgId) = db) := by
  refine ⟨?_, ?_, ?_, ?_, ?_⟩
  · intro db u jobId now j hnd hj hid hst
    have hnone : db.jobs.find?
        (fun k => decide (k.id = jobId ∧ k.status = Status.available)) = none :=
      find?_none_of_unique hnd hj hid (fun k hk => hk.1)
        (fun hk => hst hk.2)
    have he : acceptJob db u jobId now =
        .error (.preconditionFailed "Job not found or no longer available") := by
      unfold acceptJob
      rw [hnone]
    exact ⟨_, he, by rw [he]; rfl⟩
  · intro db workerId jobId now j hnd hj hid hmis
    have hnone : db.jobs.find? (fun k => decide (k.id = jobId ∧
        k.worker_id = some workerId ∧ k.status = Status.assigned)) = none := by
      refine find?_none_of_unique hnd hj hid (fun k hk => hk.1) ?_
      intro hk
      rcases hmis with hmis | hmis
      · exact hmis hk.2.2
      · exact hmis hk.2.1
    have he : startJob db workerId jobId now =
        .error (.preconditionFailed "Job not found or not assigned to you") := by
      unfold startJob
      rw [hnone]
    exact ⟨_, he, by rw [he]; rfl⟩
  · intro db workerId jobId now j hnd hj hid hmis
    have hnone : db.jobs.find? (fun k => decide (k.id = jobId ∧
        k.worker_id = some workerId ∧ k.status = Status.in_progress)) = none := by
      refine find?_none_of_unique hnd hj hid (fun k hk => hk.1) ?_
      intro hk
      rcases hmis with hmis | hmis
      · exact hmis hk.2.2
      · exact hmis hk.2.1
    have he : completeJob db workerId jobId now =
        .error (.preconditionFailed "Job not found or not in progress") := by
      unfold completeJob
      rw [hnone]
    exact ⟨_, he, by rw [he]; rfl⟩
  · intro db agentId jobId tip tc now t1 t2 rel j hnd hj hid hmis
    have hnone : db.jobs.find? (fun k => decide (k.id = jobId ∧
        k.agent_id = agentId ∧ k.status = Status.submitted)) = none := by
      refine find?_none_of_unique hnd hj hid (fun k hk => hk.1) ?_
      intro hk
      rcases hmis with hmis | hmis
      · exact hmis hk.2.2
      · exact hmis hk.2.1
    have he : approveJob db agentId jobId tip tc now t1 t2 rel =
        .error (.preconditionFailed "Job not found or not in submitted status") := by
      unfold approveJob
      rw [hnone]
    exact ⟨_, he, by rw [he]; rfl⟩
  · intro db agentId jobId r keep msgId j hnd hj hid hr hmis
    have hnone : db.jobs.find? (fun k => decide (k.id = jobId ∧
        k.agent_id = agentId ∧ k.status = Status.submitted)) = none := by
      refine find?_none_of_unique hnd hj hid (fun k hk => hk.1) ?_
      intro hk
      rcases hmis with hmis | hmis
      · exact hmis hk.2.2
      · exact hmis hk.2.1
    have he : rejectJob db agentId jobId (some r) keep msgId =
        .error (.preconditionFailed "Job not found or not in submitted status") := by
      unfold rejectJob
      dsimp only
      rw [if_neg hr, hnone]
    exact ⟨_, he, by rw [he]; rfl⟩

theorem C2_precondition_failed_unchanged_witness :
    ((db8.jobs.map Job.id).Nodup ∧ jobRow8 ∈ db8.jobs ∧ jobRow8.id = "job1" ∧
      (jobRow8.status ≠ Status.submitted ∨ jobRow8.agent_id ≠ "agent1")) ∧
    (∃ msg, approveJob db8 "agent1" "job1" none none 9 "t8" "t9" (.ok ()) =
        .error (.preconditionFailed msg) ∧
      applyOp db8 (approveJob db8 "agent1" "job1" none none 9 "t8" "t9" (.ok ())) = db8) :=
  ⟨⟨by decide, by decide, by decide, by decide⟩,
    C2_precondition_failed_unchanged.2.2.2.1 db8 "agent1" "job1" none none 9 "t8" "t9"
      (.ok ()) jobRow8 (by decide) (by decide) (by decide) (by decide)⟩

/-- C3: cancelling an in-progress job creates exactly one compensation
job_payment of half the payment_amount for the assigned worker and voids
the escrow hold at refund_percent 50; cancelling an available or assigned
job creates no transaction and voids at refund_percent 100; both mark the
job cancelled. -/
theorem C3_cancel_compensation :
    (∀ (db : DB) (agentId jobId : String) (reason : Option String)
        (txnId msgId : String) (j : Job) (w h : String),
      db.jobs.find? (fun x => decide (x.id = jobId ∧ x.agent_id = agentId)) = some j →
      j.status = Status.in_progress → j.worker_id = some w →
      j.escrow_hold_id = some h →
      ∃ db', cancelJob db agentId jobId reason txnId msgId = .ok db' ∧
        db'.transactions = compTxnOf j jobId txnId w :: db.transactions ∧
        (compTxnOf j jobId txnId w).type = TxnType.job_payment ∧
        (compTxnOf j jobId txnId w).amount = j.payment_amount * (1 / 2 : Rat) ∧
        (compTxnOf j jobId txnId w).user_id = some w ∧
        db'.escrowCalls = EscrowCall.voidHold h 50 :: db.escrowCalls ∧
        { j with status := Status.cancelled } ∈ db'.jobs) ∧
    (∀ (db : DB) (agentId jobId : String) (reason : Option String)
        (txnId msgId : String) (j : Job) (h : String),
      db.jobs.find? (fun x => decide (x.id = jobId ∧ x.agent_id = agentId)) = some j →
      j.status = Status.available ∨ j.status = Status.assigned →
      j.escrow_hold_id = some h →
      ∃ db', cancelJob db agentId jobId reason txnId msgId = .ok db' ∧
        db'.transactions = db.transactions ∧
        db'.escrowCalls = EscrowCall.voidHold h 100 :: db.escrowCalls ∧
        { j with status := Status.cancelled } ∈ db'.jobs) := by
  constructor
  · intro db agentId jobId reason txnId msgId j w h hf hip hw hh
    have hfs := find?_decide_some hf
    have hok : cancelJob db agentId jobId reason txnId msgId =
        .ok (cancelApply db agentId jobId j reason txnId msgId) := by
      unfold cancelJob
      rw [hf]
      dsimp only
      rw [if_neg (by rw [hip]; simp), if_neg (by rw [hip]; simp),
        if_neg (by rw [hip]; simp)]
    refine ⟨_, hok, ?_, rfl, rfl, rfl, ?_, ?_⟩
    · exact cancelApply_transactions_in_progress db agentId jobId j reason txnId msgId hw hip
    · exact cancelApply_escrow_in_progress db agentId jobId j reason txnId msgId hh hip
    · rw [cancelApply_jobs]
      have := List.mem_map_of_mem
        (fun x : Job => if x.id = jobId then { x with status := Status.cancelled } else x)
        hfs.1
      dsimp only at this
      rw [if_pos hfs.2.1] at this
      exact this
  · intro db agentId jobId reason txnId msgId j h hf hst hh
    have hfs := find?_decide_some hf
    have hnip : j.status ≠ Status.in_progress := by
      rcases hst with hst | hst <;> rw [hst] <;> simp
    have hok : cancelJob db agentId jobId reason txnId msgId =
        .ok (cancelApply db agentId jobId j reason txnId msgId) := by
      unfold cancelJob
      rw [hf]
      dsimp only
      rcases hst with hst | hst <;>
        rw [if_neg (by rw [hst]; simp), if_neg (by rw [hst]; simp),
          if_neg (by rw [hst]; simp)]
    refine ⟨_, hok, ?_, ?_, ?_⟩
    · exact cancelApply_transactions_other db agentId jobId j reason txnId msgId hnip
    · exact cancelApply_escrow_other db agentId jobId j reason txnId msgId hh hnip
    · rw [cancelApply_jobs]
      have := List.mem_map_of_mem
        (fun x : Job => if x.id = jobId then { x with status := Status.cancelled } else x)
        hfs.1
      dsimp only at this
      rw [if_pos hfs.2.1] at this
      exact this

theorem C3_cancel_compensation_witness :
    (db5.jobs.find? (fun x => decide (x.id = "job1" ∧ x.agent_id = "agent1")) =
        some jobRow5 ∧
      jobRow5.status = Status.in_progress ∧ jobRow5.worker_id = some "u1" ∧
      jobRow5.escrow_hold_id = some "hold1") ∧
    (∃ db', cancelJob db5 "agent1" "job1" none "t5" "m5" = .ok db' ∧
      db'.transactions = compTxnOf jobRow5 "job1" "t5" "u1" :: db5.transactions ∧
      (compTxnOf jobRow5 "job1" "t5" "u1").type = TxnType.job_payment ∧
      (compTxnOf jobRow5 "job1" "t5" "u1").amount =
        jobRow5.payment_amount * (1 / 2 : Rat) ∧
      (compTxnOf jobRow5 "job1" "t5" "u1").user_id = some "u1" ∧
      db'.escrowCalls = EscrowCall.voidHold "hold1" 50 :: db5.escrowCalls ∧
      { jobRow5 with status := Status.cancelled } ∈ db'.jobs) :=
  ⟨⟨by decide, by decide, by decide, by decide⟩,
    C3_cancel_compensation.1 db5 "agent1" "job1" none "t5" "m5" jobRow5 "u1" "hold1"
      (by decide) (by decide) (by decide) (by decide)⟩

/-- The system message recorded for the worker on rejection. -/
def rejectMsgOf (agentId jobId w r msgId : String) : Message :=
  { id := msgId
    job_id := jobId
    agent_id := agentId
    worker_id := w
    sender_type := .agent
    message := "Job rejected: " ++ r
    message_type := "system" }

theorem rejectApply_messages_release {db : DB} {agentId jobId : String} {job : Job}
    {r : String} {msgId : String} {w : String} (hw : job.worker_id = some w) :
    (rejectApply db agentId jobId job r (some (JVal.jbool false)) msgId).messages =
      rejectMsgOf agentId jobId w r msgId :: db.messages := by
  rw [rejectApply_release]
  rw [hw]
  simp [updateJob, rejectMsgOf]

theorem rejectApply_storageDeletes_release {db : DB} {agentId jobId : String}
    {job : Job} {r : String} {msgId : String} :
    (rejectApply db agentId jobId job r (some (JVal.jbool false)) msgId).storageDeletes =
      (delsOf db.deliverables jobId).map Deliverable.file_url ++ db.storageDeletes := by
  rw [rejectApply_release]
  cases job.worker_id <;> simp [updateJob]

/-- C4: rejecting a submitted job with keep_assigned=true keeps worker_id
and moves the job back to in_progress with submitted_at cleared and
rejection_count incremented, leaving deliverables alone; with
keep_assigned=false it clears the assignment fields, returns the job to
available, removes every deliverable row, issues a storage delete for
each stored object, and records a system message to the original worker. -/
theorem C4_reject_paths :
    (∀ (db : DB) (agentId jobId r msgId : String) (j : Job),
      db.jobs.find? (fun x => decide (x.id = jobId ∧ x.agent_id = agentId ∧
        x.status = Status.submitted)) = some j → r ≠ "" →
      ∃ db', rejectJob db agentId jobId (some r) (some (JVal.jbool true)) msgId =
          .ok db' ∧
        rejectKeepRow r j ∈ db'.jobs ∧
        (rejectKeepRow r j).worker_id = j.worker_id ∧
        (rejectKeepRow r j).status = Status.in_progress ∧
        (rejectKeepRow r j).submitted_at = none ∧
        (rejectKeepRow r j).rejection_count = j.rejection_count + 1 ∧
        db'.deliverables = db.deliverables) ∧
    (∀ (db : DB) (agentId jobId r msgId : String) (j : Job) (w : String),
      db.jobs.find? (fun x => decide (x.id = jobId ∧ x.agent_id = agentId ∧
        x.status = Status.submitted)) = some j → r ≠ "" →
      j.worker_id = some w →
      ∃ db', rejectJob db agentId jobId (some r) (some (JVal.jbool false)) msgId =
          .ok db' ∧
        rejectReleaseRow r j ∈ db'.jobs ∧
        (rejectReleaseRow r j).status = Status.available ∧
        (rejectReleaseRow r j).worker_id = none ∧
        (rejectReleaseRow r j).assigned_at = none ∧
        (rejectReleaseRow r j).started_at = none ∧
        (rejectReleaseRow r j).submitted_at = none ∧
        (rejectReleaseRow r j).rejection_count = j.rejection_count + 1 ∧
        (∀ d ∈ db'.deliverables, d.job_id ≠ jobId) ∧
        db'.storageDeletes =
          (delsOf db.deliverables jobId).map Deliverable.file_url ++
            db.storageDeletes ∧
        rejectMsgOf agentId jobId w r msgId ∈ db'.messages) := by
  constructor
  · intro db agentId jobId r msgId j hf hr
    have hfs := find?_decide_some hf
    have hok : rejectJob db agentId jobId (some r) (some (JVal.jbool true)) msgId =
        .ok (rejectApply db agentId jobId j r (some (JVal.jbool true)) msgId) := by
      unfold rejectJob
      dsimp only
      rw [if_neg hr, hf]
    refine ⟨_, hok, ?_, rfl, rfl, rfl, rfl, ?_⟩
    · rw [rejectApply_jobs_keep (by simp)]
      have := List.mem_map_of_mem
        (fun x : Job => if x.id = jobId then rejectKeepRow r x else x) hfs.1
      dsimp only at this
      rw [if_pos hfs.2.1] at this
      exact this
    · rw [rejectApply_deliverables_keep (by simp)]
  · intro db agentId jobId r msgId j w hf hr hw
    have hfs := find?_decide_some hf
    have hok : rejectJob db agentId jobId (some r) (some (JVal.jbool false)) msgId =
        .ok (rejectApply db agentId jobId j r (some (JVal.jbool false)) msgId) := by
      unfold rejectJob
      dsimp only
      rw [if_neg hr, hf]
    refine ⟨_, hok, ?_, rfl, rfl, rfl, rfl, rfl, rfl, ?_, ?_, ?_⟩
    · rw [rejectApply_jobs_release]
      have := List.mem_map_of_mem
        (fun x : Job => if x.id = jobId then rejectReleaseRow r x else x) hfs.1
      dsimp only at this
      rw [if_pos hfs.2.1] at this
      exact this
    · intro d hd
      rw [rejectApply_deliverables_release] at hd
      have := (List.mem_filter.mp hd).2
      simpa using this
    · exact rejectApply_storageDeletes_release
    · rw [rejectApply_messages_release hw]
      exact List.mem_cons_self _ _

theorem C4_reject_paths_witness :
    (db7.jobs.find? (fun x => decide (x.id = "job1" ∧ x.agent_id = "agent1" ∧
        x.status = Status.submitted)) = some jobRow7 ∧ ("bad photo" : String) ≠ "" ∧
      jobRow7.worker_id = some "u1") ∧
    (∃ db', rejectJob db7 "agent1" "job1" (some "bad photo")
        (some (JVal.jbool false)) "m7" = .ok db' ∧
      rejectReleaseRow "bad photo" jobRow7 ∈ db'.jobs ∧
      (rejectReleaseRow "bad photo" jobRow7).status = Status.available ∧
      (rejectReleaseRow "bad photo" jobRow7).worker_id = none ∧
      (rejectReleaseRow "bad photo" jobRow7).assigned_at = none ∧
      (rejectReleaseRow "bad photo" jobRow7).started_at = none ∧
      (rejectReleaseRow "bad photo" jobRow7).submitted_at = none ∧
      (rejectReleaseRow "bad photo" jobRow7).rejection_count =
        jobRow7.rejection_count + 1 ∧
      (∀ d ∈ db'.deliverables, d.job_id ≠ "job1") ∧
      db'.storageDeletes =
        (delsOf db7.deliverables "job1").map Deliverable.file_url ++
          db7.storageDeletes ∧
      rejectMsgOf "agent1" "job1" "u1" "bad photo" "m7" ∈ db'.messages) :=
  ⟨⟨by decide, by decide, by decide⟩,
    C4_reject_paths.2 db7 "agent1" "job1" "bad photo" "m7" jobRow7 "u1"
      (by decide) (by decide) (by decide)⟩

/-- C5: the escrow-release outcome is never inspected by the approve
handler — approval of a submitted job succeeds for every release outcome
(communication failure included), the result is outcome-independent, the
job is marked completed with completed_at set, and the worker's payment
transaction is created. -/
theorem C5_release_best_effort :
    ∀ (db : DB) (agentId jobId : String) (tip : Option Rat) (tc : Option String)
      (now : Nat) (t1 t2 : String) (j : Job),
      db.jobs.find? (fun x => decide (x.id = jobId ∧ x.agent_id = agentId ∧
        x.status = Status.submitted)) = some j →
      ∀ rel rel' : Except Unit Unit,
        approveJob db agentId jobId tip tc now t1 t2 rel =
          approveJob db agentId jobId tip tc now t1 t2 rel' ∧
        ∃ db', approveJob db agentId jobId tip tc now t1 t2 rel = .ok db' ∧
          { j with status := Status.completed, completed_at := some now } ∈ db'.jobs ∧
          payTxnOf j jobId t1 ∈ db'.transactions ∧
          (payTxnOf j jobId t1).type = TxnType.job_payment ∧
          (payTxnOf j jobId t1).amount = j.payment_amount ∧
          (payTxnOf j jobId t1).user_id = j.worker_id := by
  intro db agentId jobId tip tc now t1 t2 j hf rel rel'
  have hfs := find?_decide_some hf
  have hok : approveJob db agentId jobId tip tc now t1 t2 rel =
      .ok (approveApply db agentId jobId j tip tc now t1 t2) := by
    unfold approveJob
    rw [hf]
  refine ⟨rfl, _, hok, ?_, ?_, rfl, rfl, rfl⟩
  · rw [approveApply_jobs]
    have := List.mem_map_of_mem
      (fun x : Job => if x.id = jobId then
        { x with status := Status.completed, completed_at := some now } else x) hfs.1
    dsimp only at this
    rw [if_pos hfs.2.1] at this
    exact this
  · rw [approveApply_transactions]
    exact List.mem_append.mpr (Or.inr (List.mem_cons_self _ _))

theorem C5_release_best_effort_witness :
    (db7.jobs.find? (fun x => decide (x.id = "job1" ∧ x.agent_id = "agent1" ∧
        x.status = Status.submitted)) = some jobRow7) ∧
    (approveJob db7 "agent1" "job1" none none 4 "t1" "t2" (.error ()) =
        approveJob db7 "agent1" "job1" none none 4 "t1" "t2" (.ok ()) ∧
      ∃ db', approveJob db7 "agent1" "job1" none none 4 "t1" "t2" (.error ()) =
          .ok db' ∧
        { jobRow7 with status := Status.completed, completed_at := some 4 } ∈ db'.jobs ∧
        payTxnOf jobRow7 "job1" "t1" ∈ db'.transactions ∧
        (payTxnOf jobRow7 "job1" "t1").type = TxnType.job_payment ∧
        (payTxnOf jobRow7 "job1" "t1").amount = jobRow7.payment_amount ∧
        (payTxnOf jobRow7 "job1" "t1").user_id = jobRow7.worker_id) :=
  ⟨by decide,
    C5_release_best_effort db7 "agent1" "job1" none none 4 "t1" "t2" jobRow7
      (by decide) (.error ()) (.ok ())⟩

/-- C6: each review submission performs
`new_avg = (old_avg * old_count + new_rating) / (old_count + 1)` with the
count incremented; starting from a fresh aggregate the stored rating after
N submissions is the exact arithmetic mean of the N ratings, independent
of submission order; the sequence [5,3,4] yields rating 4 with count 3. -/
theorem C6_rating_running_average :
    (∀ (a x : Rat) (k : Nat),
      ratingUpdate a k x = ((a * k + x) / (k + 1), k + 1)) ∧
    (∀ (a : Rat) (rs : List Rat), rs ≠ [] →
      applyRatings (a, 0) rs = (rs.sum / rs.length, rs.length)) ∧
    (∀ (a : Rat) (rs rs' : List Rat), rs.Perm rs' →
      applyRatings (a, 0) rs = applyRatings (a, 0) rs') ∧
    applyRatings (0, 0) [5, 3, 4] = (4, 3) := by
  refine ⟨fun a x k => rfl, fun a rs h => applyRatings_mean a rs h,
    fun a rs rs' h => applyRatings_perm a rs rs' h, ?_⟩
  have h := applyRatings_mean 0 [5, 3, 4] (by simp)
  rw [h]
  norm_num

theorem C6_rating_running_average_witness :
    (([5, 3, 4] : List Rat) ≠ [] ∧ ([5, 3, 4] : List Rat).Perm [4, 5, 3]) ∧
    (applyRatings (0, 0) [5, 3, 4] =
        (([5, 3, 4] : List Rat).sum / (([5, 3, 4] : List Rat).length : Rat),
          ([5, 3, 4] : List Rat).length) ∧
      applyRatings ((0 : Rat), (0 : Nat)) [5, 3, 4] = applyRatings (0, 0) [4, 5, 3]) :=
  ⟨⟨by simp, by decide⟩,
    ⟨C6_rating_running_average.2.1 0 [5, 3, 4] (by simp),
      C6_rating_running_average.2.2.1 0 [5, 3, 4] [4, 5, 3] (by decide)⟩⟩

/-- C7: accepting an available job succeeds exactly when the worker's
trust tier index (basic < verified < kyc_gold) is at least the job's
required tier index — success assigns the job to the worker, and an
under-tier worker gets the ineligibility error with the store unchanged
(the job stays available). -/
theorem C7_accept_trust_gate :
    ∀ (db : DB) (u : User) (jobId : String) (now : Nat) (j : Job),
      db.jobs.find?
        (fun x => decide (x.id = jobId ∧ x.status = Status.available)) = some j →
      ((trustIndex j.required_trust_level ≤ trustIndex u.trust_level →
        acceptJob db u jobId now = .ok (updateJob db jobId (fun x =>
          { x with status := .assigned, worker_id := some u.id,
                   assigned_at := some now }))) ∧
      (trustIndex u.trust_level < trustIndex j.required_trust_level →
        ∃ msg, acceptJob db u jobId now = .error (.unauthorized msg) ∧
          applyOp db (acceptJob db u jobId now) = db)) := by
  intro db u jobId now j hf
  constructor
  · intro hle
    unfold acceptJob
    rw [hf]
    dsimp only
    rw [if_neg (by omega)]
  · intro hlt
    have he : acceptJob db u jobId now =
        .error (.unauthorized "Insufficient trust level for this job") := by
      unfold acceptJob
      rw [hf]
      dsimp only
      rw [if_pos hlt]
    exact ⟨_, he, by rw [he]; rfl⟩

/-- The single job row of the freshly created state. -/
def jobRow3 : Job := db3.jobs.headD (newJobOf "agent1" bodyW "hold1" "job1")

theorem C7_accept_trust_gate_witness :
    (db3.jobs.find?
        (fun x => decide (x.id = "job1" ∧ x.status = Status.available)) =
        some jobRow3 ∧
      trustIndex jobRow3.required_trust_level ≤ trustIndex userW.trust_level) ∧
    acceptJob db3 userW "job1" 1 = .ok (updateJob db3 "job1" (fun x =>
      { x with status := .assigned, worker_id := some userW.id,
               assigned_at := some 1 })) :=
  ⟨⟨by decide, by decide⟩,
    (C7_accept_trust_gate db3 userW "job1" 1 jobRow3 (by decide)).1 (by decide)⟩

/-- C8 counterexample: the upload route checks only that the job is
assigned to the caller, not its status, so after create → accept → upload
the store db6 is reachable and holds a deliverable whose job is still in
status `assigned` — refuting the claim that deliverables exist only for
jobs at in_progress or later. -/
theorem C8_counterexample :
    ¬ (∀ db : DB, Reachable db → ∀ d ∈ db.deliverables,
        ∃ j, j ∈ db.jobs ∧ j.id = d.job_id ∧
          j.status ≠ Status.available ∧ j.status ≠ Status.assigned) := by
  intro hall
  obtain ⟨j, hj, hjd, hnav, hna⟩ := hall db4u reach4u delivRow4u (by decide)
  have hdec : ∀ k ∈ db4u.jobs, ¬ (k.id = delivRow4u.job_id ∧
      k.status ≠ Status.available ∧ k.status ≠ Status.assigned) := by decide
  exact hdec j hj ⟨hjd, hnav, hna⟩

/-- C8 (amended): in every reachable store a deliverable's job exists and
is not in status `available` (it may still be merely `assigned`, since
upload checks only assignment); and reject with keep_assigned=false
removes every deliverable row of the job. -/
theorem C8_deliverable_invariant :
    (∀ db : DB, Reachable db → ∀ d ∈ db.deliverables,
      ∃ j, j ∈ db.jobs ∧ j.id = d.job_id ∧ j.status ≠ Status.available) ∧
    (∀ (db db' : DB) (agentId jobId r msgId : String),
      rejectJob db agentId jobId (some r) (some (JVal.jbool false)) msgId =
        .ok db' →
      ∀ d ∈ db'.deliverables, d.job_id ≠ jobId) := by
  constructor
  · intro db h d hd
    obtain ⟨_, _, hdel, _⟩ := storeInv_reachable h
    obtain ⟨j, hj, h1, h2⟩ := hdel d hd
    exact ⟨j, hj, h1, h2⟩
  · intro db db' agentId jobId r msgId h d hd
    obtain ⟨job, r', hr', _, hf, hdb⟩ := rejectJob_ok h
    subst hdb
    rw [rejectApply_deliverables_release] at hd
    simpa using (List.mem_filter.mp hd).2

theorem C8_deliverable_invariant_witness :
    (Reachable db6 ∧ delivRow6 ∈ db6.deliverables) ∧
    (∃ j, j ∈ db6.jobs ∧ j.id = delivRow6.job_id ∧
      j.status ≠ Status.available) :=
  ⟨⟨reach6, by decide⟩, C8_deliverable_invariant.1 db6 reach6 delivRow6 (by decide)⟩

/-- C9: a session whose last liveness signal is more than the 60-second
staleness threshold old at sweep time is force-closed by that sweep,
removed from the registry, and is not among the recipients of any
broadcast or direct send performed on the post-sweep registry. -/
theorem C9_stale_session_eviction :
    ∀ (now : Nat) (sessions : List Session) (s : Session),
      s ∈ sessions → s.lastPing + 60000 < now →
      s ∈ sweptSessions now sessions ∧
      s ∉ sweepSessions now sessions ∧
      (∀ ex, s ∉ broadcastRecipients (sweepSessions now sessions) ex) ∧
      (∀ uid, s ∉ sendToUserRecipients (sweepSessions now sessions) uid) := by
  intro now sessions s hmem hold
  refine ⟨stale_in_swept hmem hold, stale_not_in_sweep hold, ?_, ?_⟩
  · intro ex
    exact not_mem_filter_of_not_mem (stale_not_in_sweep hold)
  · intro uid
    exact not_mem_filter_of_not_mem (stale_not_in_sweep hold)

/-- A concrete stale session for the sweep witness. -/
def staleSession : Session :=
  { sessionId := "s1", userId := "alice", lastPing := 0 }

/-- A concrete fresh session for the sweep witness. -/
def freshSession : Session :=
  { sessionId := "s2", userId := "bob", lastPing := 90000 }

theorem C9_stale_session_eviction_witness :
    (staleSession ∈ [staleSession, freshSession] ∧
      staleSession.lastPing + 60000 < 100000) ∧
    (staleSession ∈ sweptSessions 100000 [staleSession, freshSession] ∧
      staleSession ∉ sweepSessions 100000 [staleSession, freshSession] ∧
      (∀ ex, staleSession ∉
        broadcastRecipients (sweepSessions 100000 [staleSession, freshSession]) ex) ∧
      (∀ uid, staleSession ∉
        sendToUserRecipients (sweepSessions 100000 [staleSession, freshSession]) uid)) :=
  ⟨⟨by decide, by decide⟩,
    C9_stale_session_eviction 100000 [staleSession, freshSession] staleSession
      (by decide) (by decide)⟩

theorem rejectApply_keep_irrel {db : DB} {agentId jobId : String} {job : Job}
    {r : String} {keep : Option JVal} {msgId : String}
    (hk : keep ≠ some (JVal.jbool false)) :
    rejectApply db agentId jobId job r keep msgId =
      rejectApply db agentId jobId job r (some (JVal.jbool true)) msgId := by
  unfold rejectApply
  rw [decide_eq_true hk]
  rfl

/-- C10: in the reject body only the exact boolean `false` selects the
release-back-to-pool path — an absent keep_assigned field or any other
value behaves exactly as keep_assigned=true, moving the job back to
in_progress with its worker retained. -/
theorem C10_reject_keep_default :
    ∀ (db : DB) (agentId jobId r msgId : String) (v : Option JVal),
      v ≠ some (JVal.jbool false) →
      rejectJob db agentId jobId (some r) v msgId =
        rejectJob db agentId jobId (some r) (some (JVal.jbool true)) msgId ∧
      (∀ j, db.jobs.find? (fun x => decide (x.id = jobId ∧ x.agent_id = agentId ∧
          x.status = Status.submitted)) = some j → r ≠ "" →
        ∃ db', rejectJob db agentId jobId (some r) v msgId = .ok db' ∧
          rejectKeepRow r j ∈ db'.jobs ∧
          (rejectKeepRow r j).worker_id = j.worker_id ∧
          (rejectKeepRow r j).status = Status.in_progress) := by
  intro db agentId jobId r msgId v hv
  constructor
  · unfold rejectJob
    dsimp only
    by_cases hr : r = ""
    · rw [if_pos hr, if_pos hr]
    · rw [if_neg hr, if_neg hr]
      rcases hfind : db.jobs.find? (fun x => decide (x.id = jobId ∧
          x.agent_id = agentId ∧ x.status = Status.submitted)) with _ | job
      · rw [hfind]
      · rw [hfind]
        dsimp only
        rw [rejectApply_keep_irrel hv]
  · intro j hf hr
    have hok : rejectJob db agentId jobId (some r) v msgId =
        .ok (rejectApply db agentId jobId j r v msgId) := by
      unfold rejectJob
      dsimp only
      rw [if_neg hr, hf]
    refine ⟨_, hok, ?_, rfl, rfl⟩
    have hfs := find?_decide_some hf
    rw [rejectApply_jobs_keep hv]
    have := List.mem_map_of_mem
      (fun x : Job => if x.id = jobId then rejectKeepRow r x else x) hfs.1
    dsimp only at this
    rw [if_pos hfs.2.1] at this
    exact this

theorem C10_reject_keep_default_witness :
    ((none : Option JVal) ≠ some (JVal.jbool false) ∧
      db7.jobs.find? (fun x => decide (x.id = "job1" ∧ x.agent_id = "agent1" ∧
        x.status = Status.submitted)) = some jobRow7 ∧ ("needs fix" : String) ≠ "") ∧
    (rejectJob db7 "agent1" "job1" (some "needs fix") none "m7" =
        rejectJob db7 "agent1" "job1" (some "needs fix")
          (some (JVal.jbool true)) "m7" ∧
      ∃ db', rejectJob db7 "agent1" "job1" (some "needs fix") none "m7" = .ok db' ∧
        rejectKeepRow "needs fix" jobRow7 ∈ db'.jobs ∧
        (rejectKeepRow "needs fix" jobRow7).worker_id = jobRow7.worker_id ∧
        (rejectKeepRow "needs fix" jobRow7).status = Status.in_progress) :=
  ⟨⟨by decide, by decide, by decide⟩,
    ⟨(C10_reject_keep_default db7 "agent1" "job1" "needs fix" "m7" none
        (by decide)).1,
      (C10_reject_keep_default db7 "agent1" "job1" "needs fix" "m7" none
        (by decide)).2 jobRow7 (by decide) (by decide)⟩⟩
